import Mathlib

/-!
# Verification of the terrain / streaming / visibility core of `project_platypus`

Shallow embedding of the Rust sources `src/terrain.rs`, `src/visibility.rs`
and `src/player.rs` of the repository, together with proofs and refutations
of the specification claims about them.

Modelling conventions:
* `usize`/`i32` become `Nat`/`Int`; the code never relies on machine overflow
  (grid sizes are tiny compared to `2^31`), so no modular reduction is needed.
* `f32` values that the claims depend on (`mine_time`, shadow-casting slopes)
  are modelled as exact rationals `ℚ` (real-arithmetic semantics of the
  floating point expressions).
* Bevy's ECS is modelled explicitly: the entity allocator is a counter
  `nextEntity`, entity `Visibility` components are a map `entityVis`, and the
  `Terrain` resource keeps exactly the fields of the Rust struct.  Deferred
  command-buffer effects (`spawn_batch` followed by
  `sync_tile_sprite_entities_system`) are modelled by collecting the spawned
  coordinates during the queue drain and writing fresh entity ids afterwards,
  in order, exactly as the sync system does.
* The 2-D tile array `Vec<Vec<Tile>>` is modelled as a total function
  `Nat → Nat → Tile` (row major, `tiles y x` for `tiles[y][x]`); the parallel
  flat array `sprite_entities` keeps the flat indexing `idx = y * width + x`
  of the source.
-/

namespace Platypus

/-- `TileKind` from `src/terrain.rs`. -/
inductive TileKind where
  | Air
  | Sky
  | Grass
  | Dirt
  | Stone
  | Obsidian
  | Snow
deriving DecidableEq, Repr

open TileKind

/-- `Tile` from `src/terrain.rs` (`base_rgb: Vec3` as an exact rational
triple, `mine_time: f32` as an exact rational). -/
structure Tile where
  kind : TileKind
  visible : Bool
  explored : Bool
  mine_time : ℚ
  base_rgb : ℚ × ℚ × ℚ
deriving DecidableEq

/-- The `Terrain` resource from `src/terrain.rs`.  `color_noise` (a seeded
Perlin instance, an external pure noise source per the spec) is kept as an
abstract sample function returning the raw noise value in `[-1,1]`. -/
structure Terrain where
  width : Nat
  height : Nat
  tiles : Nat → Nat → Tile
  sprite_entities : Nat → Option Nat
  changed_tiles : List (Nat × Nat)
  free_sprites : List Nat
  height_map : Nat → Nat
  color_noise : Nat → Nat → ℚ

/-- `Terrain::idx` from `src/terrain.rs`. -/
def Terrain.idx (t : Terrain) (x y : Nat) : Nat :=
  y * t.width + x

/-- `ActiveRect` from `src/terrain.rs`. -/
structure ActiveRect where
  min_x : Int
  max_x : Int
  min_y : Int
  max_y : Int
deriving DecidableEq, Repr

/-- The set of solid kinds of `solid` in `src/terrain.rs` (also the set the
spec calls "solid kinds"). -/
def isSolidKind : TileKind → Bool
  | Grass | Dirt | Stone | Obsidian | Snow => true
  | _ => false

/-- `solid` from `src/terrain.rs` (lines 1070-1079): out-of-bounds is solid
by convention, in-bounds consults the tile kind. -/
def solid (t : Terrain) (tx ty : Int) : Bool :=
  if tx < 0 ∨ ty < 0 ∨ tx ≥ (t.width : Int) ∨ ty ≥ (t.height : Int) then
    true
  else
    isSolidKind (t.tiles ty.toNat tx.toNat).kind

/-- Inclusive integer range `lo..=hi` as a list (empty when `hi < lo`),
used to model the Rust `for` loops over integer ranges. -/
def intRange (lo hi : Int) : List Int :=
  (List.range (hi + 1 - lo).toNat).map (fun i : Nat => lo + (i : Int))

/-- Point update of the 2-D tile array: `tiles[y][x] = f(tiles[y][x])`. -/
def updateTileAt (t : Terrain) (x y : Nat) (f : Tile → Tile) : Terrain :=
  { t with tiles := fun y2 x2 => if y2 = y ∧ x2 = x then f (t.tiles y2 x2) else t.tiles y2 x2 }

/-- `terrain.changed_tiles.push_back((x, y))` (FIFO: push at the back). -/
def pushChanged (t : Terrain) (c : Nat × Nat) : Terrain :=
  { t with changed_tiles := t.changed_tiles ++ [c] }

/- ===========================================================
   ECS world state around the `Terrain` resource
   =========================================================== -/

/-- World state threaded through the streaming / redraw systems: the
`Terrain` resource, the `LastRect` resource, Bevy's entity id allocator and
the `Visibility` component of every entity (`true` = `Visibility::Visible`).
Freshly spawned sprites have the default visibility `Visible`. -/
structure GameState where
  terrain : Terrain
  lastRect : Option ActiveRect
  nextEntity : Nat
  entityVis : Nat → Bool

/-- The kinds that receive a drawable in `ensure_sprite`
(`src/terrain.rs` lines 739-745): everything except `Sky`. -/
def isStreamedKind : TileKind → Bool
  | Grass | Dirt | Stone | Obsidian | Snow | Air => true
  | Sky => false

/-- `ensure_sprite` from `src/terrain.rs` (lines 729-769).  The sprite pool
`free_sprites` is a `Vec` used as a stack (`push`/`pop` at the back); it is
modelled as a list with the top at the head.  A pool hit re-inserts
`Visibility::Visible`; a pool miss calls `spawn_tile`, modelled by
allocating the next fresh entity id (spawn is visible by default). -/
def ensureSprite (s : GameState) (x y : Int) : GameState :=
  let t := s.terrain
  if x < 0 ∨ y < 0 ∨ x ≥ (t.width : Int) ∨ y ≥ (t.height : Int) then s
  else
    let ux := x.toNat
    let uy := y.toNat
    let idx := t.idx ux uy
    if (t.sprite_entities idx).isSome then s
    else if ¬ isStreamedKind (t.tiles uy ux).kind = true then s
    else
      match t.free_sprites with
      | e :: rest =>
          { s with
            terrain := { t with
              free_sprites := rest,
              sprite_entities := Function.update t.sprite_entities idx (some e) },
            entityVis := Function.update s.entityVis e true }
      | [] =>
          let e := s.nextEntity
          { s with
            terrain := { t with
              sprite_entities := Function.update t.sprite_entities idx (some e) },
            nextEntity := s.nextEntity + 1,
            entityVis := Function.update s.entityVis e true }

/-- The pool-back block of `stream_tiles_system` (`src/terrain.rs` lines
818-824 and 832-837): hide the sprite, push its entity on the pool and
clear the grid slot.  The coordinates come from an in-bounds previous
rectangle, so the `usize` casts are the identity. -/
def recycleAt (s : GameState) (x y : Int) : GameState :=
  let t := s.terrain
  let idx := t.idx x.toNat y.toNat
  match t.sprite_entities idx with
  | some e =>
      { s with
        terrain := { t with
          sprite_entities := Function.update t.sprite_entities idx none,
          free_sprites := e :: t.free_sprites },
        entityVis := Function.update s.entityVis e false }
  | none => s

/-- `stream_tiles_system` from `src/terrain.rs` (lines 776-845): early-out
on an unchanged rectangle, full population on the first run, stripe
differencing afterwards (entering columns, entering rows, leaving columns,
leaving rows restricted to the new x-span). -/
def streamTiles (s : GameState) (rect : ActiveRect) : GameState :=
  if s.lastRect = some rect then s
  else
    match s.lastRect with
    | none =>
        let s1 := (intRange rect.min_y rect.max_y).foldl (fun acc y =>
          (intRange rect.min_x rect.max_x).foldl (fun acc2 x =>
            ensureSprite acc2 x y) acc) s
        { s1 with lastRect := some rect }
    | some prev =>
        let s1 := (intRange rect.min_x rect.max_x).foldl (fun acc x =>
          if x < prev.min_x ∨ x > prev.max_x then
            (intRange rect.min_y rect.max_y).foldl (fun acc2 y =>
              ensureSprite acc2 x y) acc
          else acc) s
        let s2 := (intRange rect.min_y rect.max_y).foldl (fun acc y =>
          if y < prev.min_y ∨ y > prev.max_y then
            (intRange rect.min_x rect.max_x).foldl (fun acc2 x =>
              ensureSprite acc2 x y) acc
          else acc) s1
        let s3 := (intRange prev.min_x prev.max_x).foldl (fun acc x =>
          if x < rect.min_x ∨ x > rect.max_x then
            (intRange prev.min_y prev.max_y).foldl (fun acc2 y =>
              recycleAt acc2 x y) acc
          else acc) s2
        let s4 := (intRange prev.min_y prev.max_y).foldl (fun acc y =>
          if y < rect.min_y ∨ y > rect.max_y then
            (intRange prev.min_x prev.max_x).foldl (fun acc2 x =>
              if rect.min_x ≤ x ∧ x ≤ rect.max_x then recycleAt acc2 x y
              else acc2) acc
          else acc) s3
        { s4 with lastRect := some rect }

/- ===========================================================
   redraw_changed_tiles_system
   =========================================================== -/

/-- `COLOR_VARIATION_LEVELS = 4`, `COLOR_VARIATION_STRENGTH = 0.2`:
quantised tint factor computed from a raw noise sample
(`src/terrain.rs` lines 915-924). -/
def tintFactor (raw : ℚ) : ℚ :=
  let step : ℚ := max 0 (min ((⌊(raw + 1) * (1 / 2) * 4⌋ : ℤ) : ℚ) 3)
  let norm : ℚ := step / (4 - 1) * 2 - 1
  1 + norm * (1 / 5)

/-- Componentwise `Vec3 * factor`. -/
def scaleRgb (c : ℚ × ℚ × ℚ) (f : ℚ) : ℚ × ℚ × ℚ :=
  (c.1 * f, c.2.1 * f, c.2.2 * f)

/-- The per-kind base palette of `redraw_changed_tiles_system`
(`src/terrain.rs` lines 926-934); the wildcard arm keeps the old value. -/
def redrawRgb (kind : TileKind) (old : ℚ × ℚ × ℚ) (factor : ℚ) : ℚ × ℚ × ℚ :=
  match kind with
  | Grass => scaleRgb (13/100, 70/100, 8/100) factor
  | Snow => scaleRgb (95/100, 95/100, 95/100) factor
  | Dirt => scaleRgb (55/100, 27/100, 7/100) factor
  | Stone => scaleRgb (50/100, 50/100, 50/100) factor
  | Obsidian => scaleRgb (20/100, 5/100, 35/100) factor
  | Air => scaleRgb (20/100, 10/100, 5/100) factor
  | _ => old

/-- The drain loop of `redraw_changed_tiles_system` (`src/terrain.rs` lines
900-980).  `spawns` collects the coordinates of the deferred
`commands.spawn_batch` entries (the entity ids are allocated at flush and
written back by `sync_tile_sprite_entities_system`, see `applySpawns`).
The `inserts` batch only touches components of already-tracked entities;
its `Visibility::Visible` effect is applied directly. -/
def redrawLoop (s : GameState) (q : List (Nat × Nat)) (spawns : List (Nat × Nat)) :
    GameState × List (Nat × Nat) :=
  match q with
  | [] => (s, spawns)
  | (x, y) :: rest =>
    let t := s.terrain
    let idxS := t.idx x y
    let kind := (t.tiles y x).kind
    if kind = Sky then
      match t.sprite_entities idxS with
      | some e =>
          redrawLoop
            { s with
              terrain := { t with
                sprite_entities := Function.update t.sprite_entities idxS none,
                free_sprites := e :: t.free_sprites },
              entityVis := Function.update s.entityVis e false } rest spawns
      | none => redrawLoop s rest spawns
    else
      let factor := tintFactor (t.color_noise x y)
      let t1 := updateTileAt t x y (fun tile =>
        { tile with base_rgb := redrawRgb kind tile.base_rgb factor })
      match t1.sprite_entities idxS with
      | some e =>
          redrawLoop
            { s with
              terrain := t1,
              entityVis := Function.update s.entityVis e true } rest spawns
      | none =>
          match t1.free_sprites with
          | e :: restFree =>
              redrawLoop
                { s with
                  terrain := { t1 with
                    free_sprites := restFree,
                    sprite_entities := Function.update t1.sprite_entities idxS (some e) },
                  entityVis := Function.update s.entityVis e true } rest spawns
          | [] => redrawLoop { s with terrain := t1 } rest (spawns ++ [(x, y)])

/-- Flush of the deferred `spawn_batch` plus
`sync_tile_sprite_entities_system` (`src/terrain.rs` lines 983-984 and
1085-1095): each spawned sprite gets the next fresh entity id (visible by
default) and, when its coordinate is in bounds, is written into the grid. -/
def applySpawns (s : GameState) (spawns : List (Nat × Nat)) : GameState :=
  spawns.foldl (fun acc c =>
    let e := acc.nextEntity
    let acc1 := { acc with
      nextEntity := acc.nextEntity + 1,
      entityVis := Function.update acc.entityVis e true }
    if c.2 < acc.terrain.height ∧ c.1 < acc.terrain.width then
      { acc1 with terrain := { acc1.terrain with
          sprite_entities :=
            Function.update acc1.terrain.sprite_entities
              (acc1.terrain.idx c.1 c.2) (some e) } }
    else acc1) s

/-- `redraw_changed_tiles_system` from `src/terrain.rs` (lines 886-989):
drain the whole mutation queue, then flush the spawn batch. -/
def redrawChangedTiles (s : GameState) : GameState :=
  let q := s.terrain.changed_tiles
  let r := redrawLoop { s with terrain := { s.terrain with changed_tiles := [] } } q []
  applySpawns r.1 r.2

/- ===========================================================
   digging, pickaxe mining, stone placing, cavern carving
   =========================================================== -/

/-- The per-tile mutation of `digging_system` (`src/terrain.rs` lines
1054-1061) for a tile inside the dig circle: a solid kind
(`Grass | Dirt | Stone | Obsidian | Snow`) becomes `Air` and the coordinate
is queued; `mine_time` is not touched. -/
def digTileAt (t : Terrain) (ux uy : Nat) : Terrain :=
  if isSolidKind (t.tiles uy ux).kind then
    pushChanged (updateTileAt t ux uy (fun tile => { tile with kind := Air })) (ux, uy)
  else t

/-- `PICKAXE_SPEED` (`src/constants.rs`). -/
def PICKAXE_SPEED : ℚ := 4

/-- The per-tile mutation of `pickaxe_mining_system` (`src/player.rs` lines
324-336) for a tile inside the mining circle, with the fixed
`dt = 1.0 / 60.0` of the source: decrement `mine_time`; on reaching `<= 0`
flip the kind to `Air` and queue the coordinate (the debris particles
spawned there are decorative entities outside the tile-sprite machinery). -/
def pickaxeTileAt (t : Terrain) (ux uy : Nat) : Terrain :=
  let tile := t.tiles uy ux
  if tile.kind = Dirt ∨ tile.kind = Stone ∨ tile.kind = Obsidian ∨
      tile.kind = Grass ∨ tile.kind = Snow then
    let mt := tile.mine_time - (1 / 60) * PICKAXE_SPEED
    let t1 := updateTileAt t ux uy (fun tl => { tl with mine_time := mt })
    if mt ≤ 0 then
      pushChanged (updateTileAt t1 ux uy (fun tl => { tl with kind := Air })) (ux, uy)
    else t1
  else t

/-- `place_stone_system` from `src/player.rs` (lines 458-470), for the tile
under the cursor: bounds guard, the target must be `Air` or `Sky`, some
4-neighbour must be solid; then the tile becomes `Stone` with
`mine_time = 0.50` and the coordinate is queued. -/
def placeStoneAt (t : Terrain) (tx ty : Int) : Terrain :=
  if tx < 0 ∨ ty < 0 ∨ tx ≥ (t.width : Int) ∨ ty ≥ (t.height : Int) then t
  else
    let ux := tx.toNat
    let uy := ty.toNat
    if ¬ ((t.tiles uy ux).kind = Air ∨ (t.tiles uy ux).kind = Sky) then t
    else if ¬ ([((-1 : Int), (0 : Int)), (1, 0), (0, -1), (0, 1)].any (fun d =>
        solid t (tx + d.1) (ty + d.2))) then t
    else
      pushChanged
        (updateTileAt t ux uy (fun tl => { tl with kind := Stone, mine_time := 1/2 }))
        (ux, uy)

/-- Largest `j ≤ k` with `j * j ≤ m` (`0` when there is none); structural
helper for the integer square root. -/
def sqrtAux : Nat → Nat → Nat
  | 0, _ => 0
  | k + 1, m => if (k + 1) * (k + 1) ≤ m then k + 1 else sqrtAux k m

/-- `⌊√m⌋`, by bounded search (kernel-computable). -/
def floorSqrt (m : Nat) : Nat := sqrtAux m m

/-- Round-to-nearest of `√m` for a natural `m`: the exact value of the
`f32` expression `((1.0 - nx*nx).sqrt() * r).round()` of `carve_disc` in
real arithmetic, where `m = r*r - dx*dx` (a tie `√m = k + 1/2` is
impossible for integer `m`).  For `r = 0` Rust evaluates `0.0/0.0 = NaN`,
`NaN.round() as i32 = 0`, which coincides with `roundSqrt 0 = 0`.
See `roundSqrt_bounds` for the rounding property. -/
def roundSqrt (m : Nat) : Nat :=
  let n := floorSqrt m
  if m ≤ n * n + n then n else n + 1

/-- The set of positions `carve_disc` covers: the column offset `dx` is in
`-r..=r` and the row offset is within the column's slice
`round(√(r² - dx²))` — the disc as the code computes it. -/
def carvedRegion (cx cy r : Int) (x y : Nat) : Prop :=
  -r ≤ (x : Int) - cx ∧ (x : Int) - cx ≤ r ∧
    -(roundSqrt (r * r - ((x : Int) - cx) * ((x : Int) - cx)).toNat : Int) ≤
      (y : Int) - cy ∧
    (y : Int) - cy ≤ (roundSqrt (r * r - ((x : Int) - cx) * ((x : Int) - cx)).toNat : Int)

instance (cx cy r : Int) (x y : Nat) : Decidable (carvedRegion cx cy r x y) := by
  unfold carvedRegion
  infer_instance

/-- The body of the `carve_disc` double loop for one position `(x, y)`:
skip out-of-bounds, skip `Sky`, otherwise carve to `Air` with
`mine_time = 0` (`src/terrain.rs` lines 699-707). -/
def carveCell (t : Terrain) (x y : Int) : Terrain :=
  if x < 0 ∨ x ≥ (t.width : Int) ∨ y < 0 ∨ y ≥ (t.height : Int) then t
  else if (t.tiles y.toNat x.toNat).kind = Sky then t
  else updateTileAt t x.toNat y.toNat (fun tl => { tl with kind := Air, mine_time := 0 })

/-- `carve_disc` from `src/terrain.rs` (lines 686-709): for each column
`dx ∈ -r..=r` carve the vertical slice `-slice..=slice`. -/
def carveDisc (t : Terrain) (cx cy r : Int) : Terrain :=
  (intRange (-r) r).foldl (fun acc dx =>
    let slice : Int := (roundSqrt (r * r - dx * dx).toNat : Nat)
    (intRange (-slice) slice).foldl (fun acc2 dy =>
      carveCell acc2 (cx + dx) (cy + dy)) acc) t

/-- Equality of everything in a `Terrain` except the tile array (used to
state frame properties). -/
def sameNonTileState (a b : Terrain) : Prop :=
  a.width = b.width ∧ a.height = b.height ∧
  a.sprite_entities = b.sprite_entities ∧ a.changed_tiles = b.changed_tiles ∧
  a.free_sprites = b.free_sprites ∧ a.height_map = b.height_map ∧
  a.color_noise = b.color_noise

/- ===========================================================
   visibility.rs : shadow-casting field of view
   =========================================================== -/

/-- `FOV_RADIUS` (`src/visibility.rs`). -/
def FOV_RADIUS : Int := 48

/-- `LIGHT_BLEED_RADIUS` (`src/visibility.rs`). -/
def LIGHT_BLEED_RADIUS : Int := 1

/-- `ALWAYS_VISIBLE_DEPTH` (`src/visibility.rs`). -/
def ALWAYS_VISIBLE_DEPTH : Nat := 2

/-- The visible-tile `HashSet<(usize, usize)>`, modelled as a duplicate-free
list: insertion is a no-op on an already-present element. -/
abbrev VisSet : Type := List (Nat × Nat)

/-- `HashSet::insert`. -/
def insertOnce (p : Nat × Nat) (s : VisSet) : VisSet :=
  if p ∈ s then s else p :: s

/-- The occlusion test of `cast_light` (`src/visibility.rs` lines 229-232):
a tile is opaque iff its kind is `Dirt` or `Stone`.  It is only consulted
for in-bounds coordinates. -/
def opaqueAt (t : Terrain) (tx ty : Int) : Bool :=
  match (t.tiles ty.toNat tx.toNat).kind with
  | Dirt | Stone => true
  | _ => false

/-- The parameters of one `cast_light` octant scan that stay fixed through
the recursion: grid bounds, the occlusion predicate, the viewer tile, the
radius and the octant transform matrix. -/
structure CastCtx where
  w : Int
  h : Int
  op : Int → Int → Bool
  cx : Int
  cy : Int
  radius : Int
  xx : Int
  xy : Int
  yx : Int
  yy : Int

/-- An `f32` slope value of `cast_light`, kept as an exact integer
fraction `num / den` (every slope the scan manipulates is either `0`, `1`
or `(dx ± 0.5) / (dy ∓ 0.5)`, i.e. a ratio of odd integers; `den` is never
`0`).  `Slope.toRat` is its mathematical value; `slopeLt` decides the exact
(real-arithmetic) order — see `slopeLt_iff`. -/
structure Slope where
  num : Int
  den : Int
deriving DecidableEq, Repr

/-- The rational value of a slope. -/
def Slope.toRat (s : Slope) : ℚ := (s.num : ℚ) / (s.den : ℚ)

/-- Exact comparison `p < q` of two slopes by cross multiplication. -/
def slopeLt (p q : Slope) : Bool :=
  if 0 < p.den * q.den then p.num * q.den < q.num * p.den
  else q.num * p.den < p.num * q.den

/-- The slope constant `0.0`. -/
def slope0 : Slope := ⟨0, 1⟩

/-- The slope constant `1.0`. -/
def slope1 : Slope := ⟨1, 1⟩

/-- The inner `while dx <= 0` scan of one row of `cast_light`
(`src/visibility.rs` lines 208-266), with `dy = -dist` (constant in the
loop).  `l_slope = (dx - 0.5) / (dy + 0.5) = (2*dx - 1) / (-2*dist + 1)`
and `r_slope = (dx + 0.5) / (dy - 0.5) = (2*dx + 1) / (-2*dist - 1)`.
`recur` stands for the recursive `cast_light` call at the next row (its
entry check `start_slope < end_slope` is inlined at the call site, and its
local `new_start` starts at `0.0`).  Returns the output set together with
the mutated `start_slope`, `new_start` and `blocked` locals. -/
def castScan (ctx : CastCtx) (endS : Slope) (recur : Slope → Int → Slope → VisSet → VisSet) :
    Nat → Int → Int → Slope → Slope → Bool → VisSet → VisSet × Slope × Slope × Bool
  | 0, _, _, startS, newStart, blocked, out => (out, startS, newStart, blocked)
  | steps + 1, dist, dx, startS, newStart, blocked, out =>
    let lS : Slope := ⟨2 * dx - 1, -2 * dist + 1⟩
    let rS : Slope := ⟨2 * dx + 1, -2 * dist - 1⟩
    if slopeLt startS rS then
      castScan ctx endS recur steps dist (dx + 1) startS newStart blocked out
    else if slopeLt lS endS then (out, startS, newStart, blocked)
    else
      let tx := ctx.cx + dx * ctx.xx + (-dist) * ctx.xy
      let ty := ctx.cy + dx * ctx.yx + (-dist) * ctx.yy
      if 0 ≤ tx ∧ 0 ≤ ty ∧ tx < ctx.w ∧ ty < ctx.h then
        let out1 := if dx * dx + dist * dist ≤ ctx.radius * ctx.radius then
          insertOnce (tx.toNat, ty.toNat) out else out
        let opq := ctx.op tx ty
        if blocked then
          if opq then
            castScan ctx endS recur steps dist (dx + 1) startS rS true out1
          else
            castScan ctx endS recur steps dist (dx + 1) newStart newStart false out1
        else if opq then
          let out2 := if slopeLt startS lS then out1 else recur lS (dist + 1) startS out1
          castScan ctx endS recur steps dist (dx + 1) startS rS true out2
        else
          castScan ctx endS recur steps dist (dx + 1) startS newStart false out1
      else
        castScan ctx endS recur steps dist (dx + 1) startS newStart blocked out

/-- The `for dist in row..=radius` loop of `cast_light`, carrying the
`start_slope` / `new_start` locals across rows and stopping once a row ends
blocked.  `fuel` dominates the number of remaining rows (one unit per row;
nested recursive scans run inside the same budget), so any
`fuel ≥ radius + 2 - row` computes the loop exactly. -/
def castRec (ctx : CastCtx) : Nat → Slope → Int → Slope → Slope → VisSet → VisSet
  | 0, _, _, _, _, out => out
  | fuel + 1, endS, dist, startS, newStart, out =>
    if ctx.radius < dist then out
    else
      let r := castScan ctx endS (fun e row sS o => castRec ctx fuel e row sS slope0 o)
        (dist + 1).toNat dist (-dist) startS newStart false out
      if r.2.2.2 then r.1
      else castRec ctx fuel endS (dist + 1) r.2.1 r.2.2.1 r.1

/-- Entry of `cast_light` (`src/visibility.rs` lines 180-202): the
`start_slope < end_slope` early return, then the row loop with locals
`blocked = false`, `new_start = 0.0`. -/
def castEnter (ctx : CastCtx) (fuel : Nat) (row : Int) (startS endS : Slope)
    (out : VisSet) : VisSet :=
  if slopeLt startS endS then out else castRec ctx fuel endS row startS slope0 out

/-- The octant transform table `OCT` of `recompute_fov_system`
(`src/visibility.rs` lines 105-114). -/
def octList : List (Int × Int × Int × Int) :=
  [(1, 0, 0, 1), (0, 1, 1, 0), (0, -1, 1, 0), (-1, 0, 0, 1),
   (-1, 0, 0, -1), (0, -1, -1, 0), (0, 1, -1, 0), (1, 0, 0, -1)]

/-- The `CastCtx` of one octant of `recompute_fov_system`. -/
def fovCtx (t : Terrain) (px py : Int) (o : Int × Int × Int × Int) : CastCtx :=
  { w := t.width, h := t.height, op := opaqueAt t, cx := px, cy := py,
    radius := FOV_RADIUS, xx := o.1, xy := o.2.1, yx := o.2.2.1, yy := o.2.2.2 }

/-- Fuel that computes every octant scan exactly (rows run up to
`FOV_RADIUS`). -/
def castFuel : Nat := FOV_RADIUS.toNat + 2

/-- Description of any coordinate that one octant scan can insert: the
octant transform of some `(dx, dy)` that passed the bounds check and the
squared-distance check (`castScan` inserts with `a = dx`, `b = dy = -dist`).
-/
def castHit (ctx : CastCtx) (p : Nat × Nat) : Prop :=
  ∃ a b : Int,
    0 ≤ ctx.cx + a * ctx.xx + b * ctx.xy ∧
    0 ≤ ctx.cy + a * ctx.yx + b * ctx.yy ∧
    ctx.cx + a * ctx.xx + b * ctx.xy < ctx.w ∧
    ctx.cy + a * ctx.yx + b * ctx.yy < ctx.h ∧
    a * a + b * b ≤ ctx.radius * ctx.radius ∧
    p = ((ctx.cx + a * ctx.xx + b * ctx.xy).toNat,
      (ctx.cy + a * ctx.yx + b * ctx.yy).toNat)

/-- Casting into the 8 octants (`src/visibility.rs` lines 115-127), from
the empty scratch set, with `row = 1`, `start_slope = 1.0`,
`end_slope = 0.0`. -/
def castPhase (t : Terrain) (px py : Int) : VisSet :=
  octList.foldl (fun acc o => castEnter (fovCtx t px py o) castFuel 1 slope1 slope0 acc) []

/-- "always include the player's own tile" (`src/visibility.rs` lines
130-132). -/
def addPlayer (t : Terrain) (px py : Int) (s : VisSet) : VisSet :=
  if 0 ≤ px ∧ 0 ≤ py ∧ px < (t.width : Int) ∧ py < (t.height : Int) then
    insertOnce (px.toNat, py.toNat) s
  else s

/-- The halo bleed (`src/visibility.rs` lines 135-149): collect the
in-bounds Chebyshev-`LIGHT_BLEED_RADIUS` neighbours of every element into
`extra` (outer loop `by`, inner loop `bx`), then extend the set. -/
def bleedPhase (w h : Int) (s : VisSet) : VisSet :=
  let extra := s.flatMap (fun p =>
    (intRange (-LIGHT_BLEED_RADIUS) LIGHT_BLEED_RADIUS).flatMap (fun b =>
      (intRange (-LIGHT_BLEED_RADIUS) LIGHT_BLEED_RADIUS).filterMap (fun a =>
        let nx := (p.1 : Int) + a
        let ny := (p.2 : Int) + b
        if 0 ≤ nx ∧ 0 ≤ ny ∧ nx < w ∧ ny < h then some (nx.toNat, ny.toNat)
        else none)))
  extra.foldl (fun acc q => insertOnce q acc) s

/-- The always-visible surface band (`src/visibility.rs` lines 152-158):
for every column of the whole grid, the rows from `0` down to
`min(height_map[x] + ALWAYS_VISIBLE_DEPTH, h - 1)`. -/
def bandPhase (t : Terrain) (s : VisSet) : VisSet :=
  (List.range t.width).foldl (fun acc x =>
    let maxY := min (t.height_map x + ALWAYS_VISIBLE_DEPTH) (t.height - 1)
    (List.range (maxY + 1)).foldl (fun acc2 y => insertOnce (x, y) acc2) acc) s

/-- Phase 0 of `recompute_fov_system`: the complete new visible set. -/
def fovNewVisible (t : Terrain) (px py : Int) : VisSet :=
  bandPhase t (bleedPhase t.width t.height (addPlayer t px py (castPhase t px py)))

/-- Phase 1, dropped tile: clear `visible`, queue the coordinate
(`src/visibility.rs` lines 161-164). -/
def dropVisible (t : Terrain) (c : Nat × Nat) : Terrain :=
  pushChanged (updateTileAt t c.1 c.2 (fun tl => { tl with visible := false })) c

/-- Phase 1, newly visible tile: set `visible` and `explored`, queue the
coordinate (`src/visibility.rs` lines 165-170). -/
def markVisible (t : Terrain) (c : Nat × Nat) : Terrain :=
  pushChanged
    (updateTileAt t c.1 c.2 (fun tl => { tl with visible := true, explored := true })) c

/-- One run of `recompute_fov_system` (`src/visibility.rs` lines 88-175)
for a player tile `(px, py)`: build the new set, diff it against the old
set (iterating the set difference), store the new set. -/
def fovStep (t : Terrain) (vs : VisSet) (px py : Int) : Terrain × VisSet :=
  let nv := fovNewVisible t px py
  let t1 := (vs.filter (fun c => decide (c ∉ nv))).foldl dropVisible t
  let t2 := (nv.filter (fun c => decide (c ∉ vs))).foldl markVisible t1
  (t2, nv)

/-- A sequence of `recompute_fov_system` runs for a sequence of player
tiles (each run happens when the player tile changed; the unchanged case is
the identity and is dropped). -/
def runFov (t : Terrain) (vs : VisSet) : List (Int × Int) → Terrain × VisSet
  | [] => (t, vs)
  | p :: ps =>
    let r := fovStep t vs p.1 p.2
    runFov r.1 r.2 ps

/- ===========================================================
   predicates used by the claims
   =========================================================== -/

/-- Membership of a grid cell in an `ActiveRect`. -/
def inRect (r : ActiveRect) (x y : Nat) : Prop :=
  r.min_x ≤ (x : Int) ∧ (x : Int) ≤ r.max_x ∧ r.min_y ≤ (y : Int) ∧ (y : Int) ≤ r.max_y

instance (r : ActiveRect) (x y : Nat) : Decidable (inRect r x y) := by
  unfold inRect; infer_instance

/-- A rectangle lying inside the grid, as `update_active_rect_system`
guarantees by clamping (`src/terrain.rs` lines 869-874). -/
def rectInBounds (w h : Nat) (r : ActiveRect) : Prop :=
  0 ≤ r.min_x ∧ r.max_x < (w : Int) ∧ 0 ≤ r.min_y ∧ r.max_y < (h : Int)

instance (w h : Nat) (r : ActiveRect) : Decidable (rectInBounds w h r) := by
  unfold rectInBounds; infer_instance

/-- A sequence of `stream_tiles_system` runs. -/
def runStream (s : GameState) (rs : List ActiveRect) : GameState :=
  rs.foldl streamTiles s

/-- Modelled from the spec: the naive reference semantics of the streaming
window ("naively materializing every eligible (non-Sky) cell of the current
rectangle from scratch") — a cell holds a live drawable exactly when it
lies in the current rectangle and its kind is not `Sky`. -/
def naiveLive (tiles : Nat → Nat → Tile) (r : ActiveRect) (x y : Nat) : Prop :=
  inRect r x y ∧ (tiles y x).kind ≠ Sky

/-- The streaming invariant relating the live-drawable set to the last
streamed rectangle: an in-bounds cell holds a drawable exactly when a
rectangle has been streamed and the cell is a non-`Sky` cell inside it. -/
def StreamInv (s : GameState) : Prop :=
  ∀ x, x < s.terrain.width → ∀ y, y < s.terrain.height →
    (((s.terrain.sprite_entities (s.terrain.idx x y)).isSome = true) ↔
      (∃ r, s.lastRect = some r ∧ naiveLive s.terrain.tiles r x y))

/-- The cells visited by an `x`-outer / `y`-inner double loop whose outer
iteration is guarded by `p`, flattened in visit order as `(x, y)` pairs. -/
def cellsXY (xr : List Int) (p : Int → Bool) (yr : List Int) : List (Int × Int) :=
  (xr.filter p).flatMap (fun x => yr.map (fun y => (x, y)))

/-- The cells visited by a `y`-outer / `x`-inner double loop whose outer
iteration is guarded by `q`, flattened in visit order as `(x, y)` pairs. -/
def cellsYX (yr : List Int) (q : Int → Bool) (xr : List Int) : List (Int × Int) :=
  (yr.filter q).flatMap (fun y => xr.map (fun x => (x, y)))

/-- The cell list of the first-population loop of `stream_tiles_system`
(`src/terrain.rs` lines 784-791), flattened in visit order. -/
def fullCells (r : ActiveRect) : List (Int × Int) :=
  cellsYX (intRange r.min_y r.max_y) (fun _ => true) (intRange r.min_x r.max_x)

/-- The first-population pass of `stream_tiles_system`, flattened. -/
def streamFull (s : GameState) (r : ActiveRect) : GameState :=
  (fullCells r).foldl (fun a c => ensureSprite a c.1 c.2) s

/-- The cells of the entering-columns stripe of `stream_tiles_system`
(`src/terrain.rs` lines 795-801). -/
def enterCols (r prev : ActiveRect) : List (Int × Int) :=
  cellsXY (intRange r.min_x r.max_x)
    (fun x => decide (x < prev.min_x ∨ x > prev.max_x))
    (intRange r.min_y r.max_y)

/-- The cells of the entering-rows stripe of `stream_tiles_system`
(`src/terrain.rs` lines 803-809). -/
def enterRows (r prev : ActiveRect) : List (Int × Int) :=
  cellsYX (intRange r.min_y r.max_y)
    (fun y => decide (y < prev.min_y ∨ y > prev.max_y))
    (intRange r.min_x r.max_x)

/-- The cells of the leaving-columns stripe of `stream_tiles_system`
(`src/terrain.rs` lines 813-827). -/
def leaveCols (r prev : ActiveRect) : List (Int × Int) :=
  cellsXY (intRange prev.min_x prev.max_x)
    (fun x => decide (x < r.min_x ∨ x > r.max_x))
    (intRange prev.min_y prev.max_y)

/-- The cells of the leaving-rows stripe of `stream_tiles_system`
(`src/terrain.rs` lines 829-840); the inner loop only touches columns
that stayed inside the new x-span. -/
def leaveRows (r prev : ActiveRect) : List (Int × Int) :=
  cellsYX (intRange prev.min_y prev.max_y)
    (fun y => decide (y < r.min_y ∨ y > r.max_y))
    ((intRange prev.min_x prev.max_x).filter
      (fun x => decide (r.min_x ≤ x ∧ x ≤ r.max_x)))

/-- State after the entering-columns stripe. -/
def streamA1 (s : GameState) (r prev : ActiveRect) : GameState :=
  (enterCols r prev).foldl (fun a c => ensureSprite a c.1 c.2) s

/-- State after the entering-rows stripe. -/
def streamA2 (s : GameState) (r prev : ActiveRect) : GameState :=
  (enterRows r prev).foldl (fun a c => ensureSprite a c.1 c.2) (streamA1 s r prev)

/-- State after the leaving-columns stripe. -/
def streamR1 (s : GameState) (r prev : ActiveRect) : GameState :=
  (leaveCols r prev).foldl (fun a c => recycleAt a c.1 c.2) (streamA2 s r prev)

/-- State after the leaving-rows stripe. -/
def streamR2 (s : GameState) (r prev : ActiveRect) : GameState :=
  (leaveRows r prev).foldl (fun a c => recycleAt a c.1 c.2) (streamR1 s r prev)

/-- One frame-phase operation on the streaming / mutation state: a
`stream_tiles_system` run, a `redraw_changed_tiles_system` run, or one of
the gameplay tile mutations that enqueue redraws. -/
inductive SysOp where
  | stream (r : ActiveRect)
  | redraw
  | dig (c : Nat × Nat)
  | pickaxe (c : Nat × Nat)
  | place (tx ty : Int)

/-- Apply one operation. -/
def applySysOp (s : GameState) : SysOp → GameState
  | SysOp.stream r => streamTiles s r
  | SysOp.redraw => redrawChangedTiles s
  | SysOp.dig c => { s with terrain := digTileAt s.terrain c.1 c.2 }
  | SysOp.pickaxe c => { s with terrain := pickaxeTileAt s.terrain c.1 c.2 }
  | SysOp.place tx ty => { s with terrain := placeStoneAt s.terrain tx ty }

/-- Apply a sequence of operations. -/
def runSysOps (s : GameState) (ops : List SysOp) : GameState :=
  ops.foldl applySysOp s

/-- Side condition on an operation: rectangles are in grid bounds (as the
clamped `ActiveRect` always is) and dig / pickaxe targets are in bounds (as
the bounds guards of the originating systems ensure). -/
def sysOpOK (w h : Nat) : SysOp → Prop
  | SysOp.stream r => rectInBounds w h r
  | SysOp.redraw => True
  | SysOp.dig c => c.1 < w ∧ c.2 < h
  | SysOp.pickaxe c => c.1 < w ∧ c.2 < h
  | SysOp.place _ _ => True

instance (w h : Nat) (op : SysOp) : Decidable (sysOpOK w h op) := by
  cases op <;> (unfold sysOpOK; infer_instance)

/-- Pool-exclusivity well-formedness of a state (the property of claim C3,
plus the auxiliary facts needed to make it inductive):
(1) a drawable handle is referenced by at most one in-bounds grid cell,
(2) a handle in the free pool is referenced by no cell,
(3) the free pool holds no duplicate handles,
(4) every queued coordinate is in bounds,
(5)/(6) every referenced or pooled handle is below the entity allocator,
(7) the remembered previous rectangle lies in grid bounds (as the clamped
`ActiveRect` resource always does). -/
def StateWF (s : GameState) : Prop :=
  (∀ x1 < s.terrain.width, ∀ y1 < s.terrain.height,
    ∀ x2 < s.terrain.width, ∀ y2 < s.terrain.height,
      (s.terrain.sprite_entities (s.terrain.idx x1 y1)).isSome = true →
      s.terrain.sprite_entities (s.terrain.idx x1 y1) =
        s.terrain.sprite_entities (s.terrain.idx x2 y2) →
      x1 = x2 ∧ y1 = y2) ∧
  (∀ e ∈ s.terrain.free_sprites, ∀ x < s.terrain.width, ∀ y < s.terrain.height,
      s.terrain.sprite_entities (s.terrain.idx x y) ≠ some e) ∧
  s.terrain.free_sprites.Nodup ∧
  (∀ c ∈ s.terrain.changed_tiles, c.1 < s.terrain.width ∧ c.2 < s.terrain.height) ∧
  (∀ x < s.terrain.width, ∀ y < s.terrain.height,
      (s.terrain.sprite_entities (s.terrain.idx x y)).isSome = true →
      (s.terrain.sprite_entities (s.terrain.idx x y)).getD 0 < s.nextEntity) ∧
  (∀ e ∈ s.terrain.free_sprites, e < s.nextEntity) ∧
  (∀ r0, s.lastRect = some r0 →
    rectInBounds s.terrain.width s.terrain.height r0)

/- ===========================================================
   concrete fixtures used by counterexamples and witnesses
   =========================================================== -/

/-- A tile with the given kind and mine time. -/
def demoTile (k : TileKind) (mt : ℚ) : Tile :=
  { kind := k, visible := false, explored := false, mine_time := mt,
    base_rgb := (0, 0, 0) }

/-- A terrain of the given dimensions and tile map, with empty streaming
state and flat surface. -/
def mkTerrain (w h : Nat) (f : Nat → Nat → Tile) : Terrain :=
  { width := w, height := h, tiles := f, sprite_entities := fun _ => none,
    changed_tiles := [], free_sprites := [], height_map := fun _ => 0,
    color_noise := fun _ _ => 0 }

/-- 3×3 all-Stone terrain (generated Stone has `mine_time = 0.50`). -/
def terrStone : Terrain := mkTerrain 3 3 (fun _ _ => demoTile Stone (1/2))

/-- 5×5 open terrain with a single Grass tile at `(2, 2)`. -/
def terrGrassWall : Terrain :=
  mkTerrain 5 5 (fun y x => if y = 2 ∧ x = 2 then demoTile Grass (1/10) else demoTile Air 0)

/-- 5×5 open terrain with a single Stone tile at `(2, 2)`. -/
def terrStoneWall : Terrain :=
  mkTerrain 5 5 (fun y x => if y = 2 ∧ x = 2 then demoTile Stone (1/2) else demoTile Air 0)

/-- 60×1 open terrain, wider than the FOV radius. -/
def terrWide : Terrain := mkTerrain 60 1 (fun _ _ => demoTile Air 0)

/-- 4×4 open terrain. -/
def terrSmall : Terrain := mkTerrain 4 4 (fun _ _ => demoTile Air 0)

/-- 1×1 world holding one Stone tile about to break, whose cell owns sprite
entity `7`. -/
def gsMine : GameState :=
  { terrain := { mkTerrain 1 1 (fun _ _ => demoTile Stone (1/30)) with
      sprite_entities := fun i => if i = 0 then some 7 else none },
    lastRect := none, nextEntity := 8, entityVis := fun e => decide (e = 7) }

/-- 2×2 all-Stone world (`mine_time = 1/20`) whose cell `(0, 1)` owns
sprite entity `5`. -/
def gsMine2 : GameState :=
  { terrain := { mkTerrain 2 2 (fun _ _ => demoTile Stone (1/20)) with
      sprite_entities := fun i => if i = 2 then some 5 else none },
    lastRect := none, nextEntity := 9, entityVis := fun e => decide (e = 5) }

/-- 4×4 world whose top row is `Sky` and the rest `Dirt`, with no live
drawables and no previously streamed rectangle. -/
def gsStream : GameState :=
  { terrain := mkTerrain 4 4
      (fun y _ => if y = 0 then demoTile Sky 0 else demoTile Dirt (3/4)),
    lastRect := none, nextEntity := 0, entityVis := fun _ => false }

/-- First streamed rectangle of the `gsStream` scenario. -/
def rectA : ActiveRect := { min_x := 0, max_x := 2, min_y := 0, max_y := 2 }

/-- Second streamed rectangle of the `gsStream` scenario. -/
def rectB : ActiveRect := { min_x := 1, max_x := 3, min_y := 1, max_y := 3 }

/-- One-octant `cast_light` context over `terrGrassWall`: viewer `(2, 1)`,
octant `(1, 0, 0, -1)` (scanning downwards), radius `5`. -/
def ctxGrass : CastCtx :=
  { w := 5, h := 5, op := opaqueAt terrGrassWall, cx := 2, cy := 1,
    radius := 5, xx := 1, xy := 0, yx := 0, yy := -1 }

/-- The same context over `terrStoneWall`. -/
def ctxStone : CastCtx :=
  { w := 5, h := 5, op := opaqueAt terrStoneWall, cx := 2, cy := 1,
    radius := 5, xx := 1, xy := 0, yx := 0, yy := -1 }

/-- 2×2 terrain whose tiles are all already explored. -/
def terrExplored : Terrain :=
  mkTerrain 2 2 (fun _ _ =>
    { kind := Air, visible := false, explored := true, mine_time := 0,
      base_rgb := (0, 0, 0) })

/- ===========================================================
   Theorems
   =========================================================== -/

theorem mem_intRange {lo hi x : Int} : x ∈ intRange lo hi ↔ lo ≤ x ∧ x ≤ hi := by
  unfold intRange
  simp only [List.mem_map, List.mem_range]
  constructor
  · rintro ⟨i, hi2, rfl⟩
    omega
  · rintro ⟨h1, h2⟩
    exact ⟨(x - lo).toNat, by omega, by omega⟩

theorem sqrtAux_sq_le (k m : Nat) : sqrtAux k m * sqrtAux k m ≤ m := by
  induction k with
  | zero => simp [sqrtAux]
  | succ k ih =>
    unfold sqrtAux
    split
    · assumption
    · exact ih

theorem le_sqrtAux (k m j : Nat) (hj : j ≤ k) (hsq : j * j ≤ m) : j ≤ sqrtAux k m := by
  induction k with
  | zero => omega
  | succ k ih =>
    unfold sqrtAux
    split
    · omega
    · rename_i hk
      rcases Nat.eq_or_lt_of_le hj with h | h
      · subst h; omega
      · exact ih (by omega)

theorem floorSqrt_le (m : Nat) : floorSqrt m * floorSqrt m ≤ m := sqrtAux_sq_le m m

theorem lt_floorSqrt_succ (m : Nat) : m < (floorSqrt m + 1) * (floorSqrt m + 1) := by
  by_contra h
  push_neg at h
  have h1 : floorSqrt m + 1 ≤ m := by nlinarith
  have := le_sqrtAux m m (floorSqrt m + 1) h1 h
  unfold floorSqrt at this
  omega

/-- `roundSqrt m` is `√m` to within half a unit:
`(roundSqrt m - 1/2)² ≤ m ≤ (roundSqrt m + 1/2)²` in integer form, i.e. it
is the round-to-nearest integer square root. -/
theorem roundSqrt_bounds (m : Nat) :
    roundSqrt m * roundSqrt m ≤ m + roundSqrt m ∧
      m ≤ roundSqrt m * roundSqrt m + roundSqrt m := by
  have h1 := floorSqrt_le m
  have h2 := lt_floorSqrt_succ m
  by_cases h : m ≤ floorSqrt m * floorSqrt m + floorSqrt m
  · simp only [roundSqrt, if_pos h]
    omega
  · simp only [roundSqrt, if_neg h]
    constructor <;> nlinarith

/-- `slopeLt` decides the exact rational order of slope values. -/
theorem slopeLt_iff (p q : Slope) (hp : p.den ≠ 0) (hq : q.den ≠ 0) :
    slopeLt p q = true ↔ p.toRat < q.toRat := by
  unfold slopeLt Slope.toRat
  have hb : (p.den : ℚ) ≠ 0 := Int.cast_ne_zero.mpr hp
  have hd : (q.den : ℚ) ≠ 0 := Int.cast_ne_zero.mpr hq
  have key : (p.num : ℚ) / p.den < (q.num : ℚ) / q.den ↔
      ((0 : ℚ) < p.num * q.den - p.den * q.num ∧ ((p.den * q.den : ℚ)) < 0) ∨
        ((p.num * q.den - p.den * q.num : ℚ) < 0 ∧ (0 : ℚ) < p.den * q.den) := by
    rw [← sub_neg, div_sub_div _ _ hb hd, div_neg_iff]
  rw [key]
  have hbd : p.den * q.den ≠ 0 := mul_ne_zero hp hq
  rcases lt_trichotomy (p.den * q.den) 0 with hlt | heq | hgt
  · rw [if_neg (by omega)]
    simp only [decide_eq_true_eq]
    constructor
    · intro h
      refine Or.inl ⟨?_, ?_⟩
      · have hc : (q.num * p.den : ℚ) < (p.num * q.den : ℚ) := by exact_mod_cast h
        nlinarith [hc]
      · exact_mod_cast hlt
    · rintro (⟨h1, _⟩ | ⟨_, h2⟩)
      · have hc1 : (0 : ℚ) < (p.num * q.den - p.den * q.num : ℚ) := h1
        have hc2 : (p.den * q.num : ℚ) < p.num * q.den := by linarith
        have hc3 : p.den * q.num < p.num * q.den := by exact_mod_cast hc2
        nlinarith [hc3]
      · have hc1 : (0 : ℚ) < ((p.den * q.den : Int) : ℚ) := by push_cast; linarith
        have hc2 : (0 : Int) < p.den * q.den := by exact_mod_cast hc1
        omega
  · exact absurd heq hbd
  · rw [if_pos hgt]
    simp only [decide_eq_true_eq]
    constructor
    · intro h
      refine Or.inr ⟨?_, ?_⟩
      · have hc : (p.num * q.den : ℚ) < (q.num * p.den : ℚ) := by exact_mod_cast h
        nlinarith [hc]
      · exact_mod_cast hgt
    · rintro (⟨_, h2⟩ | ⟨h1, _⟩)
      · have hc1 : ((p.den * q.den : Int) : ℚ) < 0 := by push_cast; linarith
        have hc2 : (p.den * q.den : Int) < 0 := by exact_mod_cast hc1
        omega
      · have hc1 : (p.num * q.den - p.den * q.num : ℚ) < 0 := h1
        have hc2 : (p.num * q.den : ℚ) < p.den * q.num := by linarith
        have hc3 : p.num * q.den < p.den * q.num := by exact_mod_cast hc2
        nlinarith [hc3]

theorem mem_insertOnce {p q : Nat × Nat} {s : VisSet} :
    p ∈ insertOnce q s ↔ p = q ∨ p ∈ s := by
  unfold insertOnce
  split
  · rename_i h
    constructor
    · exact Or.inr
    · rintro (rfl | hm) <;> [exact h; exact hm]
  · simp [List.mem_cons]

theorem mem_insertOnce_self {q : Nat × Nat} {s : VisSet} : q ∈ insertOnce q s :=
  mem_insertOnce.mpr (Or.inl rfl)

theorem mem_insertOnce_of_mem {p q : Nat × Nat} {s : VisSet} (h : p ∈ s) :
    p ∈ insertOnce q s := mem_insertOnce.mpr (Or.inr h)

/-- C9: `solid(terrain, x, y)` returns `true` for every out-of-bounds
coordinate, and for every in-bounds coordinate it returns `true` if and
only if the cell's kind is `Grass`, `Dirt`, `Stone`, `Obsidian` or `Snow`
(so `Air` and `Sky` are the only non-solid kinds). -/
theorem c9_solid_boundary_convention (t : Terrain) (tx ty : Int) :
    ((tx < 0 ∨ ty < 0 ∨ tx ≥ (t.width : Int) ∨ ty ≥ (t.height : Int)) →
      solid t tx ty = true) ∧
    (¬ (tx < 0 ∨ ty < 0 ∨ tx ≥ (t.width : Int) ∨ ty ≥ (t.height : Int)) →
      (solid t tx ty = true ↔
        ((t.tiles ty.toNat tx.toNat).kind = Grass ∨
          (t.tiles ty.toNat tx.toNat).kind = Dirt ∨
          (t.tiles ty.toNat tx.toNat).kind = Stone ∨
          (t.tiles ty.toNat tx.toNat).kind = Obsidian ∨
          (t.tiles ty.toNat tx.toNat).kind = Snow))) := by
  constructor
  · intro h
    unfold solid
    rw [if_pos h]
  · intro h
    unfold solid
    rw [if_neg h]
    cases hk : (t.tiles ty.toNat tx.toNat).kind <;> simp [isSolidKind, hk]

theorem c9_solid_boundary_convention_witness :
    solid terrStone (-1) 0 = true ∧
      (solid terrStone 1 1 = true ↔
        ((terrStone.tiles (1 : Int).toNat (1 : Int).toNat).kind = Grass ∨
          (terrStone.tiles (1 : Int).toNat (1 : Int).toNat).kind = Dirt ∨
          (terrStone.tiles (1 : Int).toNat (1 : Int).toNat).kind = Stone ∨
          (terrStone.tiles (1 : Int).toNat (1 : Int).toNat).kind = Obsidian ∨
          (terrStone.tiles (1 : Int).toNat (1 : Int).toNat).kind = Snow)) :=
  ⟨(c9_solid_boundary_convention terrStone (-1) 0).1 (by decide),
    (c9_solid_boundary_convention terrStone 1 1).2 (by decide)⟩

/-- C2 (code bug): `digging_system` flips a solid tile to `Air` without
zeroing `mine_time`.  Evaluated at the failing input — a generated Stone
cell (`mine_time = 0.50`) inside one left-click dig circle — the cell ends
with `kind = Air` and `mine_time = 0.50 ≠ 0`, violating the claimed
invariant `kind = Air ∨ Sky ⇒ mine_time = 0`. -/
theorem c2_dig_leaves_stale_mine_time :
    ((digTileAt terrStone 1 1).tiles 1 1).kind = Air ∧
      ((digTileAt terrStone 1 1).tiles 1 1).mine_time ≠ 0 := by
  have h : (digTileAt terrStone 1 1).tiles 1 1 =
      { demoTile Stone (1/2) with kind := Air } := by
    simp [digTileAt, terrStone, mkTerrain, demoTile, isSolidKind, updateTileAt,
      pushChanged]
  rw [h]
  refine ⟨rfl, ?_⟩
  simp [demoTile]

/-- C4 (counterexample): in `cast_light`, a `Grass` tile does not occlude —
`opaqueAt` is `false` on an in-bounds `Grass` tile even though `solid` is
`true` there, and behaviourally the tile straight behind a `Grass` wall is
still inserted by the scan while the same tile behind a `Stone` wall is
shadowed.  This refutes "a tile blocks iff its kind is a solid kind". -/
theorem c4_counterexample :
    opaqueAt terrGrassWall 2 2 = false ∧ solid terrGrassWall 2 2 = true ∧
      (2, 3) ∈ castEnter ctxGrass 7 1 slope1 slope0 [] ∧
      ¬ ((2, 3) ∈ castEnter ctxStone 7 1 slope1 slope0 []) := by
  refine ⟨by decide, by decide, by decide, by decide⟩

/-- C4 (amended): during the recursive shadowcast, a tile blocks the scan
if and only if its kind is `Dirt` or `Stone` (`Grass`, `Obsidian`, `Snow`,
`Air` and `Sky` never occlude); consequently the scan output depends on the
tile grid only through the `Dirt`/`Stone` occlusion predicate. -/
theorem c4_occlusion_is_dirt_or_stone :
    (∀ (t : Terrain) (tx ty : Int),
      opaqueAt t tx ty = true ↔
        ((t.tiles ty.toNat tx.toNat).kind = Dirt ∨
          (t.tiles ty.toNat tx.toNat).kind = Stone)) ∧
    (∀ (t1 t2 : Terrain) (px py : Int), t1.width = t2.width →
      t1.height = t2.height →
      (∀ a b : Int, opaqueAt t1 a b = opaqueAt t2 a b) →
      castPhase t1 px py = castPhase t2 px py) := by
  constructor
  · intro t tx ty
    unfold opaqueAt
    cases hk : (t.tiles ty.toNat tx.toNat).kind <;> simp [hk]
  · intro t1 t2 px py hw hh hop
    have hof : opaqueAt t1 = opaqueAt t2 := funext fun a => funext fun b => hop a b
    have hc : ∀ o, fovCtx t1 px py o = fovCtx t2 px py o := by
      intro o
      unfold fovCtx
      rw [hw, hh, hof]
    unfold castPhase
    simp only [hc]

theorem c4_occlusion_is_dirt_or_stone_witness :
    (opaqueAt terrStone 1 1 = true ↔
      ((terrStone.tiles (1 : Int).toNat (1 : Int).toNat).kind = Dirt ∨
        (terrStone.tiles (1 : Int).toNat (1 : Int).toNat).kind = Stone)) ∧
      castPhase terrStone 1 1 = castPhase terrStone 1 1 :=
  ⟨(c4_occlusion_is_dirt_or_stone).1 terrStone 1 1,
    (c4_occlusion_is_dirt_or_stone).2 terrStone terrStone 1 1 rfl rfl
      (fun _ _ => rfl)⟩

/- ===========================================================
   C7: explored monotonicity
   =========================================================== -/

theorem dropVisible_explored (t : Terrain) (c : Nat × Nat) (x y : Nat) :
    ((dropVisible t c).tiles y x).explored = (t.tiles y x).explored := by
  simp only [dropVisible, pushChanged, updateTileAt]
  split <;> rfl

theorem markVisible_explored (t : Terrain) (c : Nat × Nat) (x y : Nat)
    (h : (t.tiles y x).explored = true) :
    ((markVisible t c).tiles y x).explored = true := by
  simp only [markVisible, pushChanged, updateTileAt]
  split <;> simp [h]

theorem foldl_dropVisible_explored (L : List (Nat × Nat)) (t : Terrain) (x y : Nat) :
    ((L.foldl dropVisible t).tiles y x).explored = (t.tiles y x).explored := by
  induction L generalizing t with
  | nil => rfl
  | cons c L ih => rw [List.foldl_cons, ih, dropVisible_explored]

theorem foldl_markVisible_explored (L : List (Nat × Nat)) (t : Terrain) (x y : Nat)
    (h : (t.tiles y x).explored = true) :
    ((L.foldl markVisible t).tiles y x).explored = true := by
  induction L generalizing t with
  | nil => exact h
  | cons c L ih => exact ih _ (markVisible_explored _ _ _ _ h)

theorem fovStep_explored_mono (t : Terrain) (vs : VisSet) (px py : Int) (x y : Nat)
    (h : (t.tiles y x).explored = true) :
    (((fovStep t vs px py).1).tiles y x).explored = true := by
  unfold fovStep
  apply foldl_markVisible_explored
  rw [foldl_dropVisible_explored]
  exact h

/-- C7: explored monotonicity — once a cell's `explored` flag is `true`, no
sequence of `recompute_fov_system` runs (for any sequence of player tiles,
from any starting visible set) ever clears it: dropped tiles only clear
`visible`, newly visible tiles set `explored` permanently. -/
theorem c7_explored_monotone (t : Terrain) (vs : VisSet) (moves : List (Int × Int))
    (x y : Nat) (h : (t.tiles y x).explored = true) :
    (((runFov t vs moves).1).tiles y x).explored = true := by
  induction moves generalizing t vs with
  | nil => exact h
  | cons p ps ih =>
    unfold runFov
    exact ih _ _ (fovStep_explored_mono t vs p.1 p.2 x y h)

theorem c7_explored_monotone_witness :
    (terrExplored.tiles 0 0).explored = true ∧
      (((runFov terrExplored [] [(0, 0)]).1).tiles 0 0).explored = true :=
  ⟨rfl, c7_explored_monotone terrExplored [] [(0, 0)] 0 0 rfl⟩


theorem castScan_mem (ctx : CastCtx) (endS : Slope)
    (recur : Slope → Int → Slope → VisSet → VisSet)
    (hrec : ∀ e row sS out p, p ∈ recur e row sS out → p ∈ out ∨ castHit ctx p) :
    ∀ (steps : Nat) (dist dx : Int) (startS newStart : Slope) (blocked : Bool)
      (out : VisSet) (p : Nat × Nat),
      p ∈ (castScan ctx endS recur steps dist dx startS newStart blocked out).1 →
      p ∈ out ∨ castHit ctx p := by
  intro steps
  induction steps with
  | zero => intro dist dx startS newStart blocked out p hp; exact Or.inl hp
  | succ steps ih =>
    intro dist dx startS newStart blocked out p hp
    rw [castScan] at hp
    dsimp only at hp
    split at hp
    · exact ih _ _ _ _ _ _ _ hp
    · split at hp
      · exact Or.inl hp
      · split at hp
        · rename_i hbounds
          -- in-bounds branch
          have hout1 : ∀ q, q ∈ (if dx * dx + dist * dist ≤ ctx.radius * ctx.radius
              then insertOnce ((ctx.cx + dx * ctx.xx + -dist * ctx.xy).toNat,
                (ctx.cy + dx * ctx.yx + -dist * ctx.yy).toNat) out else out) →
              q ∈ out ∨ castHit ctx q := by
            intro q hq
            split at hq
            · rcases mem_insertOnce.mp hq with rfl | hq2
              · right
                refine ⟨dx, -dist, ?_, ?_, ?_, ?_, ?_, rfl⟩ <;>
                  first
                    | exact hbounds.1
                    | exact hbounds.2.1
                    | exact hbounds.2.2.1
                    | exact hbounds.2.2.2
                    | nlinarith [hbounds.1]
              · exact Or.inl hq2
            · exact Or.inl hq
          split at hp
          · -- blocked
            split at hp
            · rcases ih _ _ _ _ _ _ _ hp with h1 | h2
              · exact hout1 _ h1
              · exact Or.inr h2
            · rcases ih _ _ _ _ _ _ _ hp with h1 | h2
              · exact hout1 _ h1
              · exact Or.inr h2
          · split at hp
            · -- opaque: out2 then recurse scan
              rcases ih _ _ _ _ _ _ _ hp with h1 | h2
              · -- p ∈ out2
                rcases (by
                  revert h1
                  split
                  · intro h1; exact hout1 _ h1
                  · intro h1
                    rcases hrec _ _ _ _ _ h1 with hh | hh
                    · exact hout1 _ hh
                    · exact Or.inr hh : p ∈ out ∨ castHit ctx p) with h3 | h3
                · exact Or.inl h3
                · exact Or.inr h3
              · exact Or.inr h2
            · rcases ih _ _ _ _ _ _ _ hp with h1 | h2
              · exact hout1 _ h1
              · exact Or.inr h2
        · exact ih _ _ _ _ _ _ _ hp


theorem castRec_mem (ctx : CastCtx) :
    ∀ (fuel : Nat) (endS : Slope) (dist : Int) (startS newStart : Slope)
      (out : VisSet) (p : Nat × Nat),
      p ∈ castRec ctx fuel endS dist startS newStart out →
      p ∈ out ∨ castHit ctx p := by
  intro fuel
  induction fuel with
  | zero => intro endS dist startS newStart out p hp; exact Or.inl hp
  | succ fuel ih =>
    intro endS dist startS newStart out p hp
    rw [castRec] at hp
    dsimp only at hp
    split at hp
    · exact Or.inl hp
    · have hscan := castScan_mem ctx endS
        (fun e row sS o => castRec ctx fuel e row sS slope0 o)
        (fun e row sS o q hq => ih e row sS slope0 o q hq)
      split at hp
      · exact hscan _ _ _ _ _ _ _ _ hp
      · rcases ih _ _ _ _ _ _ hp with h1 | h2
        · exact hscan _ _ _ _ _ _ _ _ h1
        · exact Or.inr h2

theorem castEnter_mem (ctx : CastCtx) (fuel : Nat) (row : Int)
    (startS endS : Slope) (out : VisSet) (p : Nat × Nat)
    (hp : p ∈ castEnter ctx fuel row startS endS out) :
    p ∈ out ∨ castHit ctx p := by
  unfold castEnter at hp
  split at hp
  · exact Or.inl hp
  · exact castRec_mem ctx _ _ _ _ _ _ _ hp

theorem foldl_mem_cases {α : Type} (f : VisSet → α → VisSet)
    (Q : α → Nat × Nat → Prop)
    (hf : ∀ s a p, p ∈ f s a → p ∈ s ∨ Q a p) :
    ∀ (L : List α) (s : VisSet) (p : Nat × Nat),
      p ∈ L.foldl f s → p ∈ s ∨ ∃ a ∈ L, Q a p := by
  intro L
  induction L with
  | nil => intro s p hp; exact Or.inl hp
  | cons a L ih =>
    intro s p hp
    rcases ih _ _ hp with h1 | ⟨b, hb, hQ⟩
    · rcases hf _ _ _ h1 with h2 | h2
      · exact Or.inl h2
      · exact Or.inr ⟨a, List.mem_cons_self _ _, h2⟩
    · exact Or.inr ⟨b, List.mem_cons_of_mem _ hb, hQ⟩

theorem castPhase_mem (t : Terrain) (px py : Int) (p : Nat × Nat)
    (hp : p ∈ castPhase t px py) :
    ∃ o ∈ octList, castHit (fovCtx t px py o) p := by
  unfold castPhase at hp
  rcases foldl_mem_cases _ (fun o q => castHit (fovCtx t px py o) q)
      (fun s o q hq => castEnter_mem _ _ _ _ _ _ _ hq) _ _ _ hp with h1 | h2
  · simp at h1
  · exact h2


/-- C6 (amended): radius bound for the shadowcast octant phase — every
tile inserted by the 8-octant `cast_light` pass of `recompute_fov_system`
has squared Euclidean distance at most `FOV_RADIUS²` from the viewer tile.
(The light bleed can exceed the radius slightly and the always-visible
surface band is not distance-bounded at all, so the bound holds for the
cast phase only; see `c6_counterexample`.) -/
theorem c6_cast_radius_bound (t : Terrain) (px py : Int) (p : Nat × Nat)
    (hp : p ∈ castPhase t px py) :
    ((p.1 : Int) - px) * ((p.1 : Int) - px) +
      ((p.2 : Int) - py) * ((p.2 : Int) - py) ≤ FOV_RADIUS * FOV_RADIUS := by
  obtain ⟨o, ho, a, b, h1, h2, h3, h4, h5, hep⟩ := castPhase_mem t px py p hp
  subst hep
  fin_cases ho <;>
    · simp only [fovCtx] at h1 h2 h3 h4 h5 ⊢
      rw [Int.toNat_of_nonneg h1, Int.toNat_of_nonneg h2]
      nlinarith [h5]

theorem foldl_mem_preserve {α : Type} (f : VisSet → α → VisSet)
    (hf : ∀ s a p, p ∈ s → p ∈ f s a) :
    ∀ (L : List α) (s : VisSet) (p : Nat × Nat), p ∈ s → p ∈ L.foldl f s := by
  intro L
  induction L with
  | nil => intro s p hp; exact hp
  | cons a L ih => intro s p hp; exact ih _ _ (hf _ _ _ hp)

theorem foldl_mem_of_elem {α : Type} (f : VisSet → α → VisSet)
    (hf : ∀ s a p, p ∈ s → p ∈ f s a) (a : α) (L : List α) (ha : a ∈ L)
    (p : Nat × Nat) (hintro : ∀ s, p ∈ f s a) :
    ∀ s, p ∈ L.foldl f s := by
  induction L with
  | nil => cases ha
  | cons b L ih =>
    intro s
    rw [List.foldl_cons]
    rcases List.mem_cons.mp ha with rfl | hmem
    · exact foldl_mem_preserve f hf L _ _ (hintro s)
    · exact ih hmem (f s b)

theorem bandPhase_mem (t : Terrain) (s : VisSet) (x y : Nat) (hx : x < t.width)
    (hy : y ≤ min (t.height_map x + ALWAYS_VISIBLE_DEPTH) (t.height - 1)) :
    (x, y) ∈ bandPhase t s := by
  unfold bandPhase
  refine foldl_mem_of_elem _ ?_ x (List.range t.width) (List.mem_range.mpr hx) (x, y) ?_ s
  · intro s2 a q hq
    exact foldl_mem_preserve _ (fun s3 c r hr => mem_insertOnce_of_mem hr) _ _ _ hq
  · intro s2
    refine foldl_mem_of_elem _ (fun s3 c r hr => mem_insertOnce_of_mem hr) y _
      (List.mem_range.mpr (by omega)) (x, y) (fun s3 => mem_insertOnce_self) s2

/-- C6 (counterexample): the always-visible surface band is inserted for
every column of the whole grid, so on a 60×1 open map with the viewer at
`(0, 0)` the stored visible set contains `(59, 0)`, at squared distance
`3481 > 48² = 2304`.  This refutes the claimed radius bound for the full
visible set. -/
theorem c6_counterexample :
    (59, 0) ∈ fovNewVisible terrWide 0 0 ∧
      ¬ (((59 : Nat) : Int) - 0) * (((59 : Nat) : Int) - 0) +
          (((0 : Nat) : Int) - 0) * (((0 : Nat) : Int) - 0) ≤
          FOV_RADIUS * FOV_RADIUS := by
  constructor
  · unfold fovNewVisible
    exact bandPhase_mem terrWide _ 59 0 (by decide) (by decide)
  · decide

/-- C5 (counterexample): `recompute_fov_system` never clamps the computed
set to the Active Rectangle (it does not even read it), and the surface
band spans the whole grid width: on a 4×4 open map with the viewer at
`(0, 0)` and the legal clamped Active Rectangle `(0, 0, 0, 0)`, the stored
set contains `(3, 0)`, which lies outside that rectangle. -/
theorem c5_counterexample :
    (3, 0) ∈ fovNewVisible terrSmall 0 0 ∧
      ¬ inRect ⟨0, 0, 0, 0⟩ 3 0 ∧ rectInBounds terrSmall.width terrSmall.height ⟨0, 0, 0, 0⟩ := by
  refine ⟨?_, by decide, by decide⟩
  unfold fovNewVisible
  exact bandPhase_mem terrSmall _ 3 0 (by decide) (by decide)


theorem foldl_all_mem {α : Type} (P : Nat × Nat → Prop) (f : VisSet → α → VisSet)
    (L : List α)
    (hf : ∀ s a, a ∈ L → (∀ p ∈ s, P p) → ∀ p ∈ f s a, P p) :
    ∀ (s : VisSet), (∀ p ∈ s, P p) → ∀ p ∈ L.foldl f s, P p := by
  induction L with
  | nil => intro s hs; exact hs
  | cons a L ih =>
    intro s hs
    rw [List.foldl_cons]
    exact ih (fun s2 b hb => hf s2 b (List.mem_cons_of_mem _ hb)) _
      (hf s a (List.mem_cons_self _ _) hs)

theorem castPhase_bounds (t : Terrain) (px py : Int) (p : Nat × Nat)
    (hp : p ∈ castPhase t px py) : p.1 < t.width ∧ p.2 < t.height := by
  obtain ⟨o, ho, a, b, h1, h2, h3, h4, _, hep⟩ := castPhase_mem t px py p hp
  subst hep
  simp only [fovCtx] at h1 h2 h3 h4 ⊢
  omega

/-- C5 (amended): every coordinate in the Visible Tile Set produced by a
run of `recompute_fov_system` lies within grid bounds (the spec's "simpler
variant"); no clamping to the Active Rectangle takes place. -/
theorem c5_visible_within_grid (t : Terrain) (px py : Int) (hh : 1 ≤ t.height) :
    ∀ p ∈ fovNewVisible t px py, p.1 < t.width ∧ p.2 < t.height := by
  have h1 : ∀ p ∈ addPlayer t px py (castPhase t px py),
      p.1 < t.width ∧ p.2 < t.height := by
    intro p hp
    unfold addPlayer at hp
    split at hp
    · rcases mem_insertOnce.mp hp with rfl | hmem
      · rename_i hcond
        dsimp only
        omega
      · exact castPhase_bounds t px py _ hmem
    · exact castPhase_bounds t px py _ hp
  have h2 : ∀ p ∈ bleedPhase t.width t.height (addPlayer t px py (castPhase t px py)),
      p.1 < t.width ∧ p.2 < t.height := by
    intro p hp
    simp only [bleedPhase] at hp
    refine foldl_all_mem _ _ _ ?_ _ h1 p hp
    intro s2 q hq hall r hr
    rcases mem_insertOnce.mp hr with rfl | hmem
    · -- q comes from the `extra` list: recover its bounds
      rw [List.mem_flatMap] at hq
      obtain ⟨c, hc, hq2⟩ := hq
      rw [List.mem_flatMap] at hq2
      obtain ⟨b, hb, hq3⟩ := hq2
      rw [List.mem_filterMap] at hq3
      obtain ⟨a, ha, hq4⟩ := hq3
      split at hq4
      · rename_i hcond
        injection hq4 with hq5
        subst hq5
        dsimp only
        omega
      · cases hq4
    · exact hall _ hmem
  intro p hp
  unfold fovNewVisible at hp
  unfold bandPhase at hp
  refine foldl_all_mem _ _ _ ?_ _ h2 p hp
  intro s2 x hx hall r hr
  have hxw : x < t.width := List.mem_range.mp hx
  refine foldl_all_mem _ _ _ ?_ _ hall r hr
  intro s3 y hy hall2 r2 hr2
  rcases mem_insertOnce.mp hr2 with rfl | hmem
  · have hyr := List.mem_range.mp hy
    dsimp only
    omega
  · exact hall2 _ hmem

theorem c5_visible_within_grid_witness :
    1 ≤ terrSmall.height ∧ (0, 0) ∈ fovNewVisible terrSmall 0 0 ∧
      ((0, 0) : Nat × Nat).1 < terrSmall.width ∧
      ((0, 0) : Nat × Nat).2 < terrSmall.height := by
  have hm : (0, 0) ∈ fovNewVisible terrSmall 0 0 := by
    unfold fovNewVisible
    exact bandPhase_mem terrSmall _ 0 0 (by decide) (by decide)
  have hb := c5_visible_within_grid terrSmall 0 0 (by decide) (0, 0) hm
  exact ⟨by decide, hm, hb.1, hb.2⟩

set_option maxRecDepth 10000 in
theorem c6_cast_radius_bound_witness :
    (0, 0) ∈ castPhase terrStone 1 1 ∧
      ((((0, 0) : Nat × Nat).1 : Int) - 1) * ((((0, 0) : Nat × Nat).1 : Int) - 1) +
        ((((0, 0) : Nat × Nat).2 : Int) - 1) * ((((0, 0) : Nat × Nat).2 : Int) - 1) ≤
        FOV_RADIUS * FOV_RADIUS := by
  have hm : (0, 0) ∈ castPhase terrStone 1 1 := by decide
  exact ⟨hm, c6_cast_radius_bound terrStone 1 1 (0, 0) hm⟩


/-- C8 (amended): when pickaxe mining drives a Stone tile's `mine_time` to
`<= 0`, the cell's kind flips to `Air` and its coordinate is pushed into
the mutation queue exactly once for that mutation; after the next redraw
drain the cell's drawable is NOT recycled — it stays owned by the cell,
is re-inserted visible (re-tinted as `Air` background), the pool is
unchanged, and no drawable is ever destroyed (the embedding has no destroy
operation, mirroring the source, which only hides or re-parameterizes tile
sprites). -/
theorem c8_mine_redraw (s : GameState) (x y : Nat) (e : Nat)
    (hk : (s.terrain.tiles y x).kind = Stone)
    (hm : (s.terrain.tiles y x).mine_time - (1/60) * PICKAXE_SPEED ≤ 0)
    (hs : s.terrain.sprite_entities (s.terrain.idx x y) = some e)
    (hq : s.terrain.changed_tiles = []) :
    ((pickaxeTileAt s.terrain x y).tiles y x).kind = Air ∧
    (pickaxeTileAt s.terrain x y).changed_tiles = [(x, y)] ∧
    (redrawChangedTiles { s with terrain := pickaxeTileAt s.terrain x y
      }).terrain.sprite_entities (s.terrain.idx x y) = some e ∧
    (redrawChangedTiles { s with terrain := pickaxeTileAt s.terrain x y
      }).terrain.free_sprites = s.terrain.free_sprites ∧
    (redrawChangedTiles { s with terrain := pickaxeTileAt s.terrain x y
      }).entityVis e = true := by
  have hcond : ((s.terrain.tiles y x).kind = Dirt ∨ (s.terrain.tiles y x).kind = Stone ∨
      (s.terrain.tiles y x).kind = Obsidian ∨ (s.terrain.tiles y x).kind = Grass ∨
      (s.terrain.tiles y x).kind = Snow) := Or.inr (Or.inl hk)
  have hpick : pickaxeTileAt s.terrain x y =
      pushChanged (updateTileAt
        (updateTileAt s.terrain x y (fun tl =>
          { tl with mine_time := (s.terrain.tiles y x).mine_time - (1/60) * PICKAXE_SPEED }))
        x y (fun tl => { tl with kind := Air })) (x, y) := by
    unfold pickaxeTileAt
    rw [if_pos hcond, if_pos hm]
  have hkind1 : ((pickaxeTileAt s.terrain x y).tiles y x).kind = Air := by
    rw [hpick]
    simp [pushChanged, updateTileAt]
  refine ⟨hkind1, ?_, ?_, ?_, ?_⟩
  · rw [hpick]
    simp [pushChanged, updateTileAt, hq]
  · rw [hpick] at hkind1 ⊢
    simp only [Terrain.idx] at hs ⊢
    simp [redrawChangedTiles, redrawLoop, applySpawns, pushChanged, updateTileAt,
      hq, hs, hkind1, Terrain.idx]
  · rw [hpick] at hkind1 ⊢
    simp only [Terrain.idx] at hs
    simp [redrawChangedTiles, redrawLoop, applySpawns, pushChanged, updateTileAt,
      hq, hs, hkind1, Terrain.idx]
  · rw [hpick] at hkind1 ⊢
    simp only [Terrain.idx] at hs
    simp [redrawChangedTiles, redrawLoop, applySpawns, pushChanged, updateTileAt,
      hq, hs, hkind1, Terrain.idx]

/-- C8 (counterexample): with a Stone cell about to break that owns sprite
`7`, after `pickaxe_mining_system` flips it to `Air` and
`redraw_changed_tiles_system` drains the queue, the sprite is still owned
by the cell, the free pool is still empty, and the sprite is visible —
refuting "its drawable has been hidden and returned to the pool". -/
theorem c8_counterexample :
    ((pickaxeTileAt gsMine.terrain 0 0).tiles 0 0).kind = Air ∧
    (pickaxeTileAt gsMine.terrain 0 0).changed_tiles = [(0, 0)] ∧
    (redrawChangedTiles { gsMine with terrain := pickaxeTileAt gsMine.terrain 0 0
      }).terrain.sprite_entities 0 = some 7 ∧
    (redrawChangedTiles { gsMine with terrain := pickaxeTileAt gsMine.terrain 0 0
      }).terrain.free_sprites = [] ∧
    (redrawChangedTiles { gsMine with terrain := pickaxeTileAt gsMine.terrain 0 0
      }).entityVis 7 = true := by
  refine ⟨?_, ?_, ?_, ?_, ?_⟩ <;>
    norm_num [gsMine, mkTerrain, demoTile, pickaxeTileAt, PICKAXE_SPEED,
      redrawChangedTiles, redrawLoop, applySpawns, pushChanged, updateTileAt,
      Terrain.idx, show (Air = Sky) ↔ False from by simp]

theorem c8_mine_redraw_witness :
    ((gsMine2.terrain.tiles 1 0).kind = Stone ∧
      (gsMine2.terrain.tiles 1 0).mine_time - (1/60) * PICKAXE_SPEED ≤ 0 ∧
      gsMine2.terrain.sprite_entities (gsMine2.terrain.idx 0 1) = some 5 ∧
      gsMine2.terrain.changed_tiles = []) ∧
    (((pickaxeTileAt gsMine2.terrain 0 1).tiles 1 0).kind = Air ∧
    (pickaxeTileAt gsMine2.terrain 0 1).changed_tiles = [(0, 1)] ∧
    (redrawChangedTiles { gsMine2 with terrain := pickaxeTileAt gsMine2.terrain 0 1
      }).terrain.sprite_entities (gsMine2.terrain.idx 0 1) = some 5 ∧
    (redrawChangedTiles { gsMine2 with terrain := pickaxeTileAt gsMine2.terrain 0 1
      }).terrain.free_sprites = gsMine2.terrain.free_sprites ∧
    (redrawChangedTiles { gsMine2 with terrain := pickaxeTileAt gsMine2.terrain 0 1
      }).entityVis 5 = true) := by
  have h1 : (gsMine2.terrain.tiles 1 0).kind = Stone := rfl
  have h2 : (gsMine2.terrain.tiles 1 0).mine_time - (1/60) * PICKAXE_SPEED ≤ 0 := by
    norm_num [gsMine2, mkTerrain, demoTile, PICKAXE_SPEED]
  have h3 : gsMine2.terrain.sprite_entities (gsMine2.terrain.idx 0 1) = some 5 := rfl
  have h4 : gsMine2.terrain.changed_tiles = [] := rfl
  exact ⟨⟨h1, h2, h3, h4⟩, c8_mine_redraw gsMine2 0 1 5 h1 h2 h3 h4⟩


theorem carveCell_frame (t : Terrain) (X Y : Int) :
    (carveCell t X Y).width = t.width ∧ (carveCell t X Y).height = t.height ∧
    (carveCell t X Y).sprite_entities = t.sprite_entities ∧
    (carveCell t X Y).changed_tiles = t.changed_tiles ∧
    (carveCell t X Y).free_sprites = t.free_sprites ∧
    (carveCell t X Y).height_map = t.height_map ∧
    (carveCell t X Y).color_noise = t.color_noise := by
  unfold carveCell updateTileAt
  split
  · exact ⟨rfl, rfl, rfl, rfl, rfl, rfl, rfl⟩
  · split
    · exact ⟨rfl, rfl, rfl, rfl, rfl, rfl, rfl⟩
    · exact ⟨rfl, rfl, rfl, rfl, rfl, rfl, rfl⟩

theorem carveCell_tiles_other (t : Terrain) (X Y : Int) (x y : Nat)
    (hne : ¬ ((x : Int) = X ∧ (y : Int) = Y)) :
    (carveCell t X Y).tiles y x = t.tiles y x := by
  unfold carveCell updateTileAt
  split
  · rfl
  · rename_i hb
    push_neg at hb
    split
    · rfl
    · dsimp only
      rw [if_neg]
      intro ⟨h1, h2⟩
      exact hne ⟨by omega, by omega⟩

theorem carveCell_tiles_oob (t : Terrain) (X Y : Int) (x y : Nat)
    (hoob : t.width ≤ x ∨ t.height ≤ y) :
    (carveCell t X Y).tiles y x = t.tiles y x := by
  unfold carveCell updateTileAt
  split
  · rfl
  · rename_i hb
    push_neg at hb
    split
    · rfl
    · dsimp only
      rw [if_neg]
      intro ⟨h1, h2⟩
      rcases hoob with h | h <;> omega

theorem carveCell_tiles_self (t : Terrain) (x y : Nat)
    (hx : x < t.width) (hy : y < t.height) :
    (carveCell t (x : Int) (y : Int)).tiles y x =
      if (t.tiles y x).kind = Sky then t.tiles y x
      else { t.tiles y x with kind := Air, mine_time := 0 } := by
  unfold carveCell updateTileAt
  rw [if_neg (by omega)]
  simp only [Int.toNat_natCast]
  split
  · rfl
  · dsimp only
    rw [if_pos ⟨rfl, rfl⟩]

theorem carveCell_eq_of_sky (t : Terrain) (x y : Nat)
    (hs : (t.tiles y x).kind = Sky) :
    carveCell t (x : Int) (y : Int) = t := by
  unfold carveCell
  split
  · rfl
  · rw [if_pos]
    simpa using hs

theorem intRange_nodup (lo hi : Int) : (intRange lo hi).Nodup := by
  unfold intRange
  refine List.Nodup.map ?_ (List.nodup_range _)
  intro a b hab
  have hab2 : (a : Int) = b := by simpa using hab
  exact_mod_cast hab2

theorem carve_inner_frame (X cy : Int) (L : List Int) (acc : Terrain) :
    ((L.foldl (fun a dy => carveCell a X (cy + dy)) acc).width = acc.width ∧
      (L.foldl (fun a dy => carveCell a X (cy + dy)) acc).height = acc.height) ∧
    (L.foldl (fun a dy => carveCell a X (cy + dy)) acc).sprite_entities = acc.sprite_entities ∧
    (L.foldl (fun a dy => carveCell a X (cy + dy)) acc).changed_tiles = acc.changed_tiles ∧
    (L.foldl (fun a dy => carveCell a X (cy + dy)) acc).free_sprites = acc.free_sprites ∧
    (L.foldl (fun a dy => carveCell a X (cy + dy)) acc).height_map = acc.height_map ∧
    (L.foldl (fun a dy => carveCell a X (cy + dy)) acc).color_noise = acc.color_noise := by
  induction L generalizing acc with
  | nil => exact ⟨⟨rfl, rfl⟩, rfl, rfl, rfl, rfl, rfl⟩
  | cons d L ih =>
    rw [List.foldl_cons]
    obtain ⟨⟨w1, h1⟩, s1, c1, f1, m1, n1⟩ := ih (carveCell acc X (cy + d))
    obtain ⟨w2, h2, s2, c2, f2, m2, n2⟩ := carveCell_frame acc X (cy + d)
    exact ⟨⟨w1.trans w2, h1.trans h2⟩, s1.trans s2, c1.trans c2, f1.trans f2,
      m1.trans m2, n1.trans n2⟩

theorem carve_inner_other (X cy : Int) (L : List Int) (acc : Terrain) (x y : Nat)
    (hne : (x : Int) ≠ X) :
    (L.foldl (fun a dy => carveCell a X (cy + dy)) acc).tiles y x = acc.tiles y x := by
  induction L generalizing acc with
  | nil => rfl
  | cons d L ih =>
    rw [List.foldl_cons, ih, carveCell_tiles_other]
    intro ⟨h1, _⟩
    exact hne h1

theorem carve_inner_oob (X cy : Int) (L : List Int) (acc : Terrain) (x y : Nat)
    (hoob : acc.width ≤ x ∨ acc.height ≤ y) :
    (L.foldl (fun a dy => carveCell a X (cy + dy)) acc).tiles y x = acc.tiles y x := by
  induction L generalizing acc with
  | nil => rfl
  | cons d L ih =>
    rw [List.foldl_cons, ih, carveCell_tiles_oob _ _ _ _ _ hoob]
    obtain ⟨w2, h2, _⟩ := carveCell_frame acc X (cy + d)
    rcases hoob with h | h
    · exact Or.inl (by rw [w2]; exact h)
    · exact Or.inr (by rw [h2]; exact h)

theorem carve_inner_self (cy : Int) (L : List Int) (hnd : L.Nodup) :
    ∀ (acc : Terrain) (x y : Nat), x < acc.width → y < acc.height →
    (L.foldl (fun a dy => carveCell a ((x : Nat) : Int) (cy + dy)) acc).tiles y x =
      (if ((y : Int) - cy) ∈ L ∧ ¬ (acc.tiles y x).kind = Sky then
        { acc.tiles y x with kind := Air, mine_time := 0 }
      else acc.tiles y x) := by
  induction L with
  | nil => intro acc x y hx hy; simp
  | cons d L ih =>
    intro acc x y hx hy
    rw [List.foldl_cons]
    have hnd2 := (List.nodup_cons.mp hnd).2
    have hdn := (List.nodup_cons.mp hnd).1
    obtain ⟨wcell, hcell, _⟩ :=
      carveCell_frame acc ((x : Nat) : Int) (cy + d)
    by_cases hm : (y : Int) = cy + d
    · by_cases hsky : (acc.tiles y x).kind = Sky
      · have hstep : carveCell acc ((x : Nat) : Int) (cy + d) = acc := by
          rw [show cy + d = ((y : Nat) : Int) by omega]
          exact carveCell_eq_of_sky acc x y hsky
        rw [hstep, ih hnd2 acc x y hx hy]
        simp [hsky]
      · have hstep : (carveCell acc ((x : Nat) : Int) (cy + d)).tiles y x =
            { acc.tiles y x with kind := Air, mine_time := 0 } := by
          rw [show cy + d = ((y : Nat) : Int) by omega,
            carveCell_tiles_self acc x y hx hy, if_neg hsky]
        rw [ih hnd2 _ x y (by omega) (by omega)]
        rw [hstep]
        have hnotin : ¬ (((y : Int) - cy) ∈ L) := by
          intro hc
          exact hdn (by rwa [show ((y : Int) - cy) = d by omega] at hc)
        rw [if_neg (by intro ⟨hc, _⟩; exact hnotin hc)]
        rw [if_pos ⟨by rw [show ((y : Int) - cy) = d by omega]; exact List.mem_cons_self _ _, hsky⟩]
    · have hstep : (carveCell acc ((x : Nat) : Int) (cy + d)).tiles y x =
          acc.tiles y x := by
        apply carveCell_tiles_other
        intro ⟨_, h2⟩
        exact hm h2
      rw [ih hnd2 _ x y (by omega) (by omega)]
      rw [hstep]
      have hmem : (((y : Int) - cy) ∈ (d :: L)) ↔ (((y : Int) - cy) ∈ L) := by
        simp only [List.mem_cons]
        constructor
        · rintro (hc | hc)
          · omega
          · exact hc
        · exact Or.inr
      simp only [hmem]


theorem carve_outer_frame (cx cy r : Int) (M : List Int) (acc : Terrain) :
    (M.foldl (fun a dx =>
        (intRange (-((roundSqrt (r * r - dx * dx).toNat : Nat) : Int))
            ((roundSqrt (r * r - dx * dx).toNat : Nat) : Int)).foldl
          (fun a2 dy => carveCell a2 (cx + dx) (cy + dy)) a) acc).width = acc.width ∧
    (M.foldl (fun a dx =>
        (intRange (-((roundSqrt (r * r - dx * dx).toNat : Nat) : Int))
            ((roundSqrt (r * r - dx * dx).toNat : Nat) : Int)).foldl
          (fun a2 dy => carveCell a2 (cx + dx) (cy + dy)) a) acc).height = acc.height ∧
    (M.foldl (fun a dx =>
        (intRange (-((roundSqrt (r * r - dx * dx).toNat : Nat) : Int))
            ((roundSqrt (r * r - dx * dx).toNat : Nat) : Int)).foldl
          (fun a2 dy => carveCell a2 (cx + dx) (cy + dy)) a) acc).sprite_entities =
      acc.sprite_entities ∧
    (M.foldl (fun a dx =>
        (intRange (-((roundSqrt (r * r - dx * dx).toNat : Nat) : Int))
            ((roundSqrt (r * r - dx * dx).toNat : Nat) : Int)).foldl
          (fun a2 dy => carveCell a2 (cx + dx) (cy + dy)) a) acc).changed_tiles =
      acc.changed_tiles ∧
    (M.foldl (fun a dx =>
        (intRange (-((roundSqrt (r * r - dx * dx).toNat : Nat) : Int))
            ((roundSqrt (r * r - dx * dx).toNat : Nat) : Int)).foldl
          (fun a2 dy => carveCell a2 (cx + dx) (cy + dy)) a) acc).free_sprites =
      acc.free_sprites ∧
    (M.foldl (fun a dx =>
        (intRange (-((roundSqrt (r * r - dx * dx).toNat : Nat) : Int))
            ((roundSqrt (r * r - dx * dx).toNat : Nat) : Int)).foldl
          (fun a2 dy => carveCell a2 (cx + dx) (cy + dy)) a) acc).height_map =
      acc.height_map ∧
    (M.foldl (fun a dx =>
        (intRange (-((roundSqrt (r * r - dx * dx).toNat : Nat) : Int))
            ((roundSqrt (r * r - dx * dx).toNat : Nat) : Int)).foldl
          (fun a2 dy => carveCell a2 (cx + dx) (cy + dy)) a) acc).color_noise =
      acc.color_noise := by
  induction M generalizing acc with
  | nil => exact ⟨rfl, rfl, rfl, rfl, rfl, rfl, rfl⟩
  | cons d M ih =>
    rw [List.foldl_cons]
    obtain ⟨w1, h1, s1, c1, f1, m1, n1⟩ := ih ((intRange
      (-((roundSqrt (r * r - d * d).toNat : Nat) : Int))
      ((roundSqrt (r * r - d * d).toNat : Nat) : Int)).foldl
        (fun a2 dy => carveCell a2 (cx + d) (cy + dy)) acc)
    obtain ⟨⟨w2, h2⟩, s2, c2, f2, m2, n2⟩ := carve_inner_frame (cx + d) cy _ acc
    exact ⟨w1.trans w2, h1.trans h2, s1.trans s2, c1.trans c2, f1.trans f2,
      m1.trans m2, n1.trans n2⟩

theorem carve_outer_oob (cx cy r : Int) (M : List Int) (acc : Terrain) (x y : Nat)
    (hoob : acc.width ≤ x ∨ acc.height ≤ y) :
    (M.foldl (fun a dx =>
        (intRange (-((roundSqrt (r * r - dx * dx).toNat : Nat) : Int))
            ((roundSqrt (r * r - dx * dx).toNat : Nat) : Int)).foldl
          (fun a2 dy => carveCell a2 (cx + dx) (cy + dy)) a) acc).tiles y x =
      acc.tiles y x := by
  induction M generalizing acc with
  | nil => rfl
  | cons d M ih =>
    rw [List.foldl_cons]
    obtain ⟨⟨w2, h2⟩, _⟩ := carve_inner_frame (cx + d) cy
      (intRange (-((roundSqrt (r * r - d * d).toNat : Nat) : Int))
        ((roundSqrt (r * r - d * d).toNat : Nat) : Int)) acc
    have hoob2 : ((intRange (-((roundSqrt (r * r - d * d).toNat : Nat) : Int))
        ((roundSqrt (r * r - d * d).toNat : Nat) : Int)).foldl
          (fun a2 dy => carveCell a2 (cx + d) (cy + dy)) acc).width ≤ x ∨
        ((intRange (-((roundSqrt (r * r - d * d).toNat : Nat) : Int))
          ((roundSqrt (r * r - d * d).toNat : Nat) : Int)).foldl
            (fun a2 dy => carveCell a2 (cx + d) (cy + dy)) acc).height ≤ y := by
      rcases hoob with h | h
      · exact Or.inl (by omega)
      · exact Or.inr (by omega)
    rw [ih _ hoob2, carve_inner_oob _ _ _ _ _ _ hoob]

theorem carve_outer_self (cx cy r : Int) (M : List Int) (hnd : M.Nodup) :
    ∀ (acc : Terrain) (x y : Nat), x < acc.width → y < acc.height →
    (M.foldl (fun a dx =>
        (intRange (-((roundSqrt (r * r - dx * dx).toNat : Nat) : Int))
            ((roundSqrt (r * r - dx * dx).toNat : Nat) : Int)).foldl
          (fun a2 dy => carveCell a2 (cx + dx) (cy + dy)) a) acc).tiles y x =
      (if ((x : Int) - cx) ∈ M ∧
          ((y : Int) - cy) ∈ intRange
            (-((roundSqrt
              (r * r - ((x : Int) - cx) * ((x : Int) - cx)).toNat : Nat) : Int))
            ((roundSqrt
              (r * r - ((x : Int) - cx) * ((x : Int) - cx)).toNat : Nat) : Int) ∧
          ¬ (acc.tiles y x).kind = Sky then
        { acc.tiles y x with kind := Air, mine_time := 0 }
      else acc.tiles y x) := by
  induction M with
  | nil => intro acc x y hx hy; simp
  | cons d M ih =>
    intro acc x y hx hy
    rw [List.foldl_cons]
    have hnd1 := (List.nodup_cons.mp hnd).1
    have hnd2 := (List.nodup_cons.mp hnd).2
    obtain ⟨⟨w2, h2⟩, _⟩ := carve_inner_frame (cx + d) cy
      (intRange (-((roundSqrt (r * r - d * d).toNat : Nat) : Int))
        ((roundSqrt (r * r - d * d).toNat : Nat) : Int)) acc
    by_cases hcol : (x : Int) = cx + d
    · have hd : d = (x : Int) - cx := by omega
      have hfun : (fun (a2 : Terrain) (dy : Int) => carveCell a2 (cx + d) (cy + dy)) =
          (fun (a2 : Terrain) (dy : Int) => carveCell a2 ((x : Nat) : Int) (cy + dy)) := by
        rw [show cx + d = ((x : Nat) : Int) from hcol.symm]
      have hstep : ((intRange (-((roundSqrt (r * r - d * d).toNat : Nat) : Int))
          ((roundSqrt (r * r - d * d).toNat : Nat) : Int)).foldl
            (fun a2 dy => carveCell a2 (cx + d) (cy + dy)) acc).tiles y x =
          (if ((y : Int) - cy) ∈ intRange
              (-((roundSqrt (r * r - d * d).toNat : Nat) : Int))
              ((roundSqrt (r * r - d * d).toNat : Nat) : Int) ∧
              ¬ (acc.tiles y x).kind = Sky then
            { acc.tiles y x with kind := Air, mine_time := 0 }
          else acc.tiles y x) := by
        rw [hfun]
        exact carve_inner_self cy _ (intRange_nodup _ _) acc x y hx hy
      rw [ih hnd2 _ x y (by omega) (by omega)]
      have hnotin : ¬ (((x : Int) - cx) ∈ M) := by
        intro hc
        rw [← hd] at hc
        exact hnd1 hc
      rw [if_neg (by intro ⟨hc, _⟩; exact hnotin hc)]
      rw [hstep]
      rw [← hd]
      by_cases hcond : (((y : Int) - cy) ∈ intRange
          (-((roundSqrt (r * r - d * d).toNat : Nat) : Int))
          ((roundSqrt (r * r - d * d).toNat : Nat) : Int)) ∧
          ¬ (acc.tiles y x).kind = Sky
      · rw [if_pos hcond, if_pos ⟨List.mem_cons_self _ _ |> (by rw [hd]; exact ·),
          hcond.1, hcond.2⟩]
      · rw [if_neg hcond]
        rw [if_neg (by intro ⟨_, hc2, hc3⟩; exact hcond ⟨hc2, hc3⟩)]
    · have hstep : ((intRange (-((roundSqrt (r * r - d * d).toNat : Nat) : Int))
          ((roundSqrt (r * r - d * d).toNat : Nat) : Int)).foldl
            (fun a2 dy => carveCell a2 (cx + d) (cy + dy)) acc).tiles y x =
          acc.tiles y x :=
        carve_inner_other (cx + d) cy _ acc x y hcol
      rw [ih hnd2 _ x y (by omega) (by omega)]
      rw [hstep]
      have hmem : (((x : Int) - cx) ∈ (d :: M)) ↔ (((x : Int) - cx) ∈ M) := by
        simp only [List.mem_cons]
        constructor
        · rintro (hc | hc)
          · omega
          · exact hc
        · exact Or.inr
      simp only [hmem]


/-- C10: carve-disc frame property — `carve_disc` modifies exactly the
in-bounds, non-`Sky` cells of its covered region (each becomes `Air` with
`mine_time = 0`, other tile fields intact), leaves every other cell and
every out-of-bounds position untouched (no panic), and leaves all
non-tile state of the terrain unchanged. -/
theorem c10_carve_disc_frame (t : Terrain) (cx cy r : Int) (x y : Nat) :
    (x < t.width → y < t.height →
      (carveDisc t cx cy r).tiles y x =
        (if carvedRegion cx cy r x y ∧ ¬ (t.tiles y x).kind = Sky then
          { t.tiles y x with kind := Air, mine_time := 0 }
        else t.tiles y x)) ∧
    (t.width ≤ x ∨ t.height ≤ y → (carveDisc t cx cy r).tiles y x = t.tiles y x) ∧
    sameNonTileState (carveDisc t cx cy r) t := by
  refine ⟨?_, ?_, ?_⟩
  · intro hx hy
    unfold carveDisc
    dsimp only
    rw [carve_outer_self cx cy r _ (intRange_nodup _ _) t x y hx hy]
    have hiff : ((((x : Int) - cx) ∈ intRange (-r) r ∧
        ((y : Int) - cy) ∈ intRange
          (-((roundSqrt
            (r * r - ((x : Int) - cx) * ((x : Int) - cx)).toNat : Nat) : Int))
          ((roundSqrt
            (r * r - ((x : Int) - cx) * ((x : Int) - cx)).toNat : Nat) : Int) ∧
        ¬ (t.tiles y x).kind = Sky)) ↔
        (carvedRegion cx cy r x y ∧ ¬ (t.tiles y x).kind = Sky) := by
      unfold carvedRegion
      rw [mem_intRange, mem_intRange]
      tauto
    rw [if_congr hiff rfl rfl]
  · intro h
    unfold carveDisc
    dsimp only
    exact carve_outer_oob cx cy r _ t x y h
  · unfold sameNonTileState carveDisc
    dsimp only
    exact carve_outer_frame cx cy r _ t

theorem c10_carve_disc_frame_witness :
    ((carveDisc terrStone 1 1 1).tiles 0 1 =
      (if carvedRegion 1 1 1 1 0 ∧ ¬ (terrStone.tiles 0 1).kind = Sky then
        { terrStone.tiles 0 1 with kind := Air, mine_time := 0 }
      else terrStone.tiles 0 1)) ∧
    (carveDisc terrStone 1 1 1).tiles 5 7 = terrStone.tiles 5 7 ∧
    sameNonTileState (carveDisc terrStone 1 1 1) terrStone :=
  ⟨(c10_carve_disc_frame terrStone 1 1 1 1 0).1 (by decide) (by decide),
    (c10_carve_disc_frame terrStone 1 1 1 7 5).2.1 (Or.inl (by decide)),
    (c10_carve_disc_frame terrStone 1 1 1 0 0).2.2⟩


theorem isStreamedKind_iff (k : TileKind) : isStreamedKind k = true ↔ k ≠ Sky := by
  cases k <;> simp [isStreamedKind]

theorem idx_inj {w : Nat} {x1 y1 x2 y2 : Nat} (hx1 : x1 < w) (hx2 : x2 < w)
    (h : y1 * w + x1 = y2 * w + x2) : x1 = x2 ∧ y1 = y2 := by
  have hw : 0 < w := by omega
  have h1 : (y1 * w + x1) % w = x1 := by
    rw [Nat.mul_comm, Nat.mul_add_mod, Nat.mod_eq_of_lt hx1]
  have h2 : (y2 * w + x2) % w = x2 := by
    rw [Nat.mul_comm, Nat.mul_add_mod, Nat.mod_eq_of_lt hx2]
  have h3 : (y1 * w + x1) / w = y1 := by
    rw [Nat.mul_comm, Nat.mul_add_div hw, Nat.div_eq_of_lt hx1, Nat.add_zero]
  have h4 : (y2 * w + x2) / w = y2 := by
    rw [Nat.mul_comm, Nat.mul_add_div hw, Nat.div_eq_of_lt hx2, Nat.add_zero]
  constructor
  · rw [← h1, ← h2, h]
  · rw [← h3, ← h4, h]

theorem ensureSprite_frame (s : GameState) (x y : Int) :
    (ensureSprite s x y).terrain.width = s.terrain.width ∧
    (ensureSprite s x y).terrain.height = s.terrain.height ∧
    (ensureSprite s x y).terrain.tiles = s.terrain.tiles ∧
    (ensureSprite s x y).terrain.changed_tiles = s.terrain.changed_tiles ∧
    (ensureSprite s x y).terrain.height_map = s.terrain.height_map ∧
    (ensureSprite s x y).terrain.color_noise = s.terrain.color_noise ∧
    (ensureSprite s x y).lastRect = s.lastRect := by
  unfold ensureSprite
  dsimp only
  split
  · exact ⟨rfl, rfl, rfl, rfl, rfl, rfl, rfl⟩
  · split
    · exact ⟨rfl, rfl, rfl, rfl, rfl, rfl, rfl⟩
    · split
      · exact ⟨rfl, rfl, rfl, rfl, rfl, rfl, rfl⟩
      · split <;> exact ⟨rfl, rfl, rfl, rfl, rfl, rfl, rfl⟩

theorem recycleAt_frame (s : GameState) (x y : Int) :
    (recycleAt s x y).terrain.width = s.terrain.width ∧
    (recycleAt s x y).terrain.height = s.terrain.height ∧
    (recycleAt s x y).terrain.tiles = s.terrain.tiles ∧
    (recycleAt s x y).terrain.changed_tiles = s.terrain.changed_tiles ∧
    (recycleAt s x y).terrain.height_map = s.terrain.height_map ∧
    (recycleAt s x y).terrain.color_noise = s.terrain.color_noise ∧
    (recycleAt s x y).lastRect = s.lastRect := by
  unfold recycleAt
  dsimp only
  split <;> exact ⟨rfl, rfl, rfl, rfl, rfl, rfl, rfl⟩

theorem ensureSprite_sprites_other (s : GameState) (x y : Int) (j : Nat)
    (hj : j ≠ s.terrain.idx x.toNat y.toNat) :
    (ensureSprite s x y).terrain.sprite_entities j = s.terrain.sprite_entities j := by
  unfold ensureSprite
  dsimp only
  split
  · rfl
  · split
    · rfl
    · split
      · rfl
      · split <;> · dsimp only; rw [Function.update_noteq hj]

theorem ensureSprite_sprites_self (s : GameState) (x y : Int)
    (hx0 : 0 ≤ x) (hy0 : 0 ≤ y) (hxw : x < (s.terrain.width : Int))
    (hyh : y < (s.terrain.height : Int)) :
    ((ensureSprite s x y).terrain.sprite_entities
        (s.terrain.idx x.toNat y.toNat)).isSome =
      ((s.terrain.sprite_entities (s.terrain.idx x.toNat y.toNat)).isSome ||
        isStreamedKind ((s.terrain.tiles y.toNat x.toNat).kind)) := by
  unfold ensureSprite
  dsimp only
  rw [if_neg (by omega)]
  split
  · rename_i h
    rw [h, Bool.true_or]
  · rename_i h
    rw [Bool.not_eq_true] at h
    rw [h, Bool.false_or]
    split
    · rename_i hk
      rw [Bool.not_eq_true] at hk
      rw [hk, h]
    · rename_i hk
      rw [Bool.not_eq_true] at hk
      simp only [Bool.not_eq_false] at hk
      rw [hk]
      split <;> · dsimp only; rw [Function.update_same]; rfl

theorem recycleAt_sprites_self (s : GameState) (x y : Int) :
    (recycleAt s x y).terrain.sprite_entities (s.terrain.idx x.toNat y.toNat) =
      none := by
  unfold recycleAt
  dsimp only
  split
  · dsimp only
    rw [Function.update_same]
  · assumption

theorem recycleAt_sprites_other (s : GameState) (x y : Int) (j : Nat)
    (hj : j ≠ s.terrain.idx x.toNat y.toNat) :
    (recycleAt s x y).terrain.sprite_entities j = s.terrain.sprite_entities j := by
  unfold recycleAt
  dsimp only
  split
  · dsimp only
    rw [Function.update_noteq hj]
  · rfl

theorem foldl_if_filter {β σ : Type} (q : β → Prop) [DecidablePred q] (g : σ → β → σ) :
    ∀ (ys : List β) (s0 : σ),
    ys.foldl (fun s b => if q b then g s b else s) s0 =
      (ys.filter (fun b => decide (q b))).foldl g s0 := by
  intro ys
  induction ys with
  | nil => intro s0; rfl
  | cons b ys ih =>
    intro s0
    rw [List.foldl_cons, List.filter_cons]
    by_cases hb : q b
    · rw [if_pos hb, if_pos (decide_eq_true hb), List.foldl_cons]
      exact ih (g s0 b)
    · rw [if_neg hb, if_neg (by simpa using hb)]
      exact ih s0

theorem foldl_nested_xy {σ : Type} (f : σ → Int → Int → σ) (p : Int → Prop)
    [DecidablePred p] (ys : List Int) :
    ∀ (xs : List Int) (s0 : σ),
    xs.foldl (fun s x => if p x then ys.foldl (fun s2 y => f s2 x y) s else s) s0 =
      (cellsXY xs (fun x => decide (p x)) ys).foldl (fun s c => f s c.1 c.2) s0 := by
  intro xs
  induction xs with
  | nil => intro s0; rfl
  | cons a xs ih =>
    intro s0
    rw [List.foldl_cons]
    unfold cellsXY
    rw [List.filter_cons]
    by_cases ha : p a
    · rw [if_pos ha, if_pos (decide_eq_true ha), List.flatMap_cons, List.foldl_append,
        List.foldl_map]
      exact ih _
    · rw [if_neg ha, if_neg (by simpa using ha)]
      exact ih s0

theorem foldl_nested_yx {σ : Type} (f : σ → Int → Int → σ) (q : Int → Prop)
    [DecidablePred q] (xs : List Int) :
    ∀ (ys : List Int) (s0 : σ),
    ys.foldl (fun s y => if q y then xs.foldl (fun s2 x => f s2 x y) s else s) s0 =
      (cellsYX ys (fun y => decide (q y)) xs).foldl (fun s c => f s c.1 c.2) s0 := by
  intro ys
  induction ys with
  | nil => intro s0; rfl
  | cons b ys ih =>
    intro s0
    rw [List.foldl_cons]
    unfold cellsYX
    rw [List.filter_cons]
    by_cases hb : q b
    · rw [if_pos hb, if_pos (decide_eq_true hb), List.flatMap_cons, List.foldl_append,
        List.foldl_map]
      exact ih _
    · rw [if_neg hb, if_neg (by simpa using hb)]
      exact ih s0

theorem mem_cellsXY {xs ys : List Int} {p : Int → Bool} {c : Int × Int} :
    c ∈ cellsXY xs p ys ↔ (c.1 ∈ xs ∧ p c.1 = true ∧ c.2 ∈ ys) := by
  unfold cellsXY
  rw [List.mem_flatMap]
  constructor
  · rintro ⟨a, ha, hc⟩
    rw [List.mem_map] at hc
    obtain ⟨b, hb, rfl⟩ := hc
    rw [List.mem_filter] at ha
    exact ⟨ha.1, ha.2, hb⟩
  · rintro ⟨h1, h2, h3⟩
    refine ⟨c.1, List.mem_filter.mpr ⟨h1, h2⟩, ?_⟩
    rw [List.mem_map]
    exact ⟨c.2, h3, rfl⟩

theorem mem_cellsYX {xs ys : List Int} {q : Int → Bool} {c : Int × Int} :
    c ∈ cellsYX ys q xs ↔ (c.2 ∈ ys ∧ q c.2 = true ∧ c.1 ∈ xs) := by
  unfold cellsYX
  rw [List.mem_flatMap]
  constructor
  · rintro ⟨a, ha, hc⟩
    rw [List.mem_map] at hc
    obtain ⟨b, hb, rfl⟩ := hc
    rw [List.mem_filter] at ha
    exact ⟨ha.1, ha.2, hb⟩
  · rintro ⟨h1, h2, h3⟩
    refine ⟨c.2, List.mem_filter.mpr ⟨h1, h2⟩, ?_⟩
    rw [List.mem_map]
    refine ⟨c.1, h3, ?_⟩
    rfl

theorem ensure_fold_frame (L : List (Int × Int)) :
    ∀ (s : GameState),
    ((L.foldl (fun a c => ensureSprite a c.1 c.2) s).terrain.width = s.terrain.width ∧
      (L.foldl (fun a c => ensureSprite a c.1 c.2) s).terrain.height = s.terrain.height) ∧
    (L.foldl (fun a c => ensureSprite a c.1 c.2) s).terrain.tiles = s.terrain.tiles ∧
    (L.foldl (fun a c => ensureSprite a c.1 c.2) s).terrain.changed_tiles =
      s.terrain.changed_tiles ∧
    (L.foldl (fun a c => ensureSprite a c.1 c.2) s).lastRect = s.lastRect := by
  induction L with
  | nil => intro s; exact ⟨⟨rfl, rfl⟩, rfl, rfl, rfl⟩
  | cons c L ih =>
    intro s
    rw [List.foldl_cons]
    obtain ⟨⟨w1, h1⟩, t1, c1, l1⟩ := ih (ensureSprite s c.1 c.2)
    obtain ⟨w2, h2, t2, c2, _, _, l2⟩ := ensureSprite_frame s c.1 c.2
    exact ⟨⟨w1.trans w2, h1.trans h2⟩, t1.trans t2, c1.trans c2, l1.trans l2⟩

theorem recycle_fold_frame (L : List (Int × Int)) :
    ∀ (s : GameState),
    ((L.foldl (fun a c => recycleAt a c.1 c.2) s).terrain.width = s.terrain.width ∧
      (L.foldl (fun a c => recycleAt a c.1 c.2) s).terrain.height = s.terrain.height) ∧
    (L.foldl (fun a c => recycleAt a c.1 c.2) s).terrain.tiles = s.terrain.tiles ∧
    (L.foldl (fun a c => recycleAt a c.1 c.2) s).terrain.changed_tiles =
      s.terrain.changed_tiles ∧
    (L.foldl (fun a c => recycleAt a c.1 c.2) s).lastRect = s.lastRect := by
  induction L with
  | nil => intro s; exact ⟨⟨rfl, rfl⟩, rfl, rfl, rfl⟩
  | cons c L ih =>
    intro s
    rw [List.foldl_cons]
    obtain ⟨⟨w1, h1⟩, t1, c1, l1⟩ := ih (recycleAt s c.1 c.2)
    obtain ⟨w2, h2, t2, c2, _, _, l2⟩ := recycleAt_frame s c.1 c.2
    exact ⟨⟨w1.trans w2, h1.trans h2⟩, t1.trans t2, c1.trans c2, l1.trans l2⟩


theorem cell_ne_idx {s : GameState} {c : Int × Int} {x y : Nat}
    (hb : 0 ≤ c.1 ∧ 0 ≤ c.2 ∧ c.1 < (s.terrain.width : Int) ∧
      c.2 < (s.terrain.height : Int))
    (hx : x < s.terrain.width) (hne : c ≠ (((x : Nat) : Int), ((y : Nat) : Int))) :
    s.terrain.idx x y ≠ s.terrain.idx c.1.toNat c.2.toNat := by
  intro hidx
  unfold Terrain.idx at hidx
  obtain ⟨hxx, hyy⟩ := idx_inj hx (by omega) hidx
  apply hne
  have h1 : c.1 = ((x : Nat) : Int) := by omega
  have h2 : c.2 = ((y : Nat) : Int) := by omega
  exact Prod.ext h1 h2

theorem ensure_fold_isSome (L : List (Int × Int)) :
    ∀ (s : GameState) (x y : Nat), x < s.terrain.width → y < s.terrain.height →
    (∀ c ∈ L, 0 ≤ c.1 ∧ 0 ≤ c.2 ∧ c.1 < (s.terrain.width : Int) ∧
      c.2 < (s.terrain.height : Int)) →
    (((L.foldl (fun a c => ensureSprite a c.1 c.2) s).terrain.sprite_entities
        (s.terrain.idx x y)).isSome = true ↔
      ((s.terrain.sprite_entities (s.terrain.idx x y)).isSome = true ∨
        ((((x : Nat) : Int), ((y : Nat) : Int)) ∈ L ∧
          isStreamedKind ((s.terrain.tiles y x).kind) = true))) := by
  induction L with
  | nil =>
    intro s x y hx hy hL
    simp
  | cons c L ih =>
    intro s x y hx hy hL
    rw [List.foldl_cons]
    obtain ⟨w2, h2, t2, _, _, _, _⟩ := ensureSprite_frame s c.1 c.2
    have hbc := hL c (List.mem_cons_self _ _)
    have hL2 : ∀ d ∈ L, 0 ≤ d.1 ∧ 0 ≤ d.2 ∧
        d.1 < ((ensureSprite s c.1 c.2).terrain.width : Int) ∧
        d.2 < ((ensureSprite s c.1 c.2).terrain.height : Int) := by
      intro d hd
      have := hL d (List.mem_cons_of_mem _ hd)
      rw [w2, h2]
      exact this
    have hidx : (ensureSprite s c.1 c.2).terrain.idx x y = s.terrain.idx x y := by
      unfold Terrain.idx
      rw [w2]
    have hih := ih (ensureSprite s c.1 c.2) x y (by omega) (by omega) hL2
    rw [hidx, t2] at hih
    rw [hih]
    by_cases hc : c = (((x : Nat) : Int), ((y : Nat) : Int))
    · rw [hc]
      have hself := ensureSprite_sprites_self s ((x : Nat) : Int) ((y : Nat) : Int)
        (by omega) (by omega) (by exact_mod_cast hx) (by exact_mod_cast hy)
      simp only [Int.toNat_natCast] at hself
      rw [hself]
      simp only [Bool.or_eq_true, List.mem_cons, eq_self_iff_true, true_or,
        true_and]
      tauto
    · have hother := ensureSprite_sprites_other s c.1 c.2 (s.terrain.idx x y)
        (cell_ne_idx hbc hx (fun h => hc (by rw [h])))
      rw [hother]
      have hmem : ((((x : Nat) : Int), ((y : Nat) : Int)) ∈ (c :: L)) ↔
          ((((x : Nat) : Int), ((y : Nat) : Int)) ∈ L) := by
        simp only [List.mem_cons]
        constructor
        · rintro (hm | hm)
          · exact absurd hm (fun h => hc h.symm)
          · exact hm
        · exact Or.inr
      rw [hmem]

theorem recycle_fold_sprites (L : List (Int × Int)) :
    ∀ (s : GameState) (x y : Nat), x < s.terrain.width → y < s.terrain.height →
    (∀ c ∈ L, 0 ≤ c.1 ∧ 0 ≤ c.2 ∧ c.1 < (s.terrain.width : Int) ∧
      c.2 < (s.terrain.height : Int)) →
    ((L.foldl (fun a c => recycleAt a c.1 c.2) s).terrain.sprite_entities
        (s.terrain.idx x y)) =
      (if (((x : Nat) : Int), ((y : Nat) : Int)) ∈ L then none
      else s.terrain.sprite_entities (s.terrain.idx x y)) := by
  induction L with
  | nil =>
    intro s x y hx hy hL
    simp
  | cons c L ih =>
    intro s x y hx hy hL
    rw [List.foldl_cons]
    obtain ⟨w2, h2, t2, _, _, _, _⟩ := recycleAt_frame s c.1 c.2
    have hbc := hL c (List.mem_cons_self _ _)
    have hL2 : ∀ d ∈ L, 0 ≤ d.1 ∧ 0 ≤ d.2 ∧
        d.1 < ((recycleAt s c.1 c.2).terrain.width : Int) ∧
        d.2 < ((recycleAt s c.1 c.2).terrain.height : Int) := by
      intro d hd
      have := hL d (List.mem_cons_of_mem _ hd)
      rw [w2, h2]
      exact this
    have hidx : (recycleAt s c.1 c.2).terrain.idx x y = s.terrain.idx x y := by
      unfold Terrain.idx
      rw [w2]
    have hih := ih (recycleAt s c.1 c.2) x y (by omega) (by omega) hL2
    rw [hidx] at hih
    rw [hih]
    by_cases hc : c = (((x : Nat) : Int), ((y : Nat) : Int))
    · rw [hc]
      have hself := recycleAt_sprites_self s ((x : Nat) : Int) ((y : Nat) : Int)
      simp only [Int.toNat_natCast] at hself
      rw [if_pos (List.mem_cons_self _ _)]
      rw [hself]
      rw [ite_self]
    · have hother := recycleAt_sprites_other s c.1 c.2 (s.terrain.idx x y)
        (cell_ne_idx hbc hx (fun h => hc (by rw [h])))
      rw [hother]
      have hmem : ((((x : Nat) : Int), ((y : Nat) : Int)) ∈ (c :: L)) ↔
          ((((x : Nat) : Int), ((y : Nat) : Int)) ∈ L) := by
        simp only [List.mem_cons]
        constructor
        · rintro (hm | hm)
          · exact absurd hm.symm hc
          · exact hm
        · exact Or.inr
      simp only [hmem]

theorem foldl_nested_yx_true {σ : Type} (f : σ → Int → Int → σ) (xs : List Int) :
    ∀ (ys : List Int) (s0 : σ),
    ys.foldl (fun s y => xs.foldl (fun s2 x => f s2 x y) s) s0 =
      (cellsYX ys (fun _ => true) xs).foldl (fun s c => f s c.1 c.2) s0 := by
  intro ys
  induction ys with
  | nil => intro s0; rfl
  | cons b ys ih =>
    intro s0
    rw [List.foldl_cons]
    unfold cellsYX
    rw [List.filter_cons]
    rw [if_pos rfl, List.flatMap_cons, List.foldl_append, List.foldl_map]
    exact ih _

theorem foldl_nested_yx_filter {σ : Type} (f : σ → Int → Int → σ) (q : Int → Prop)
    [DecidablePred q] (p : Int → Prop) [DecidablePred p] (xs : List Int)
    (ys : List Int) (s0 : σ) :
    ys.foldl (fun s y =>
        if q y then xs.foldl (fun s2 x => if p x then f s2 x y else s2) s else s) s0 =
      (cellsYX ys (fun y => decide (q y))
          (xs.filter (fun x => decide (p x)))).foldl (fun s c => f s c.1 c.2) s0 := by
  have h : (fun (s : σ) y =>
      if q y then xs.foldl (fun s2 x => if p x then f s2 x y else s2) s else s) =
      (fun (s : σ) y =>
      if q y then (xs.filter (fun x => decide (p x))).foldl
        (fun s2 x => f s2 x y) s else s) := by
    funext s y
    by_cases hq : q y
    · rw [if_pos hq, if_pos hq, foldl_if_filter]
    · rw [if_neg hq, if_neg hq]
  rw [h]
  exact foldl_nested_yx f q (xs.filter (fun x => decide (p x))) ys s0

theorem streamTiles_self (s : GameState) (r : ActiveRect)
    (h : s.lastRect = some r) : streamTiles s r = s := by
  unfold streamTiles
  rw [if_pos h]

theorem streamTiles_eq_none (s : GameState) (r : ActiveRect)
    (hne : s.lastRect ≠ some r) (hnone : s.lastRect = none) :
    streamTiles s r = { streamFull s r with lastRect := some r } := by
  unfold streamTiles
  rw [if_neg hne, hnone]
  simp only [foldl_nested_yx_true]
  rfl

theorem streamTiles_eq_some (s : GameState) (r prev : ActiveRect)
    (hne : s.lastRect ≠ some r) (hprev : s.lastRect = some prev) :
    streamTiles s r = { streamR2 s r prev with lastRect := some r } := by
  unfold streamTiles
  rw [if_neg hne, hprev]
  show
    { (intRange prev.min_y prev.max_y).foldl (fun acc y =>
        if y < r.min_y ∨ y > r.max_y then
          (intRange prev.min_x prev.max_x).foldl (fun acc2 x =>
            if r.min_x ≤ x ∧ x ≤ r.max_x then recycleAt acc2 x y else acc2) acc
        else acc)
      ((intRange prev.min_x prev.max_x).foldl (fun acc x =>
        if x < r.min_x ∨ x > r.max_x then
          (intRange prev.min_y prev.max_y).foldl (fun acc2 y =>
            recycleAt acc2 x y) acc
        else acc)
      ((intRange r.min_y r.max_y).foldl (fun acc y =>
        if y < prev.min_y ∨ y > prev.max_y then
          (intRange r.min_x r.max_x).foldl (fun acc2 x =>
            ensureSprite acc2 x y) acc
        else acc)
      ((intRange r.min_x r.max_x).foldl (fun acc x =>
        if x < prev.min_x ∨ x > prev.max_x then
          (intRange r.min_y r.max_y).foldl (fun acc2 y =>
            ensureSprite acc2 x y) acc
        else acc) s))) with
      lastRect := some r } = _
  rw [foldl_nested_xy (fun a x y => ensureSprite a x y)
    (fun x => x < prev.min_x ∨ x > prev.max_x) (intRange r.min_y r.max_y)]
  rw [foldl_nested_yx (fun a x y => ensureSprite a x y)
    (fun y => y < prev.min_y ∨ y > prev.max_y) (intRange r.min_x r.max_x)]
  rw [foldl_nested_xy (fun a x y => recycleAt a x y)
    (fun x => x < r.min_x ∨ x > r.max_x) (intRange prev.min_y prev.max_y)]
  rw [foldl_nested_yx_filter (fun a x y => recycleAt a x y)
    (fun y => y < r.min_y ∨ y > r.max_y)
    (fun x => r.min_x ≤ x ∧ x ≤ r.max_x) (intRange prev.min_x prev.max_x)]
  rfl

theorem StreamInv_of (s2 : GameState) (w h : Nat) (tiles : Nat → Nat → Tile)
    (r : ActiveRect) (hw : s2.terrain.width = w) (hh : s2.terrain.height = h)
    (ht : s2.terrain.tiles = tiles) (hlr : s2.lastRect = some r)
    (hspr : ∀ x, x < w → ∀ y, y < h →
      (((s2.terrain.sprite_entities (y * w + x)).isSome = true) ↔
        naiveLive tiles r x y)) :
    StreamInv s2 := by
  intro x hx y hy
  rw [hw] at hx
  rw [hh] at hy
  unfold Terrain.idx
  rw [hw, ht, hlr]
  constructor
  · intro hs
    exact ⟨r, rfl, (hspr x hx y hy).mp hs⟩
  · rintro ⟨r2, hr2, hn⟩
    injection hr2 with hr3
    rw [← hr3] at hn
    exact (hspr x hx y hy).mpr hn

theorem mem_fullCells {r : ActiveRect} {c : Int × Int} :
    c ∈ fullCells r ↔
      ((r.min_y ≤ c.2 ∧ c.2 ≤ r.max_y) ∧ (r.min_x ≤ c.1 ∧ c.1 ≤ r.max_x)) := by
  unfold fullCells
  simp only [mem_cellsYX, mem_intRange, eq_self_iff_true, true_and, and_true]

theorem mem_enterCols {r prev : ActiveRect} {c : Int × Int} :
    c ∈ enterCols r prev ↔
      ((r.min_x ≤ c.1 ∧ c.1 ≤ r.max_x) ∧ (c.1 < prev.min_x ∨ c.1 > prev.max_x) ∧
        (r.min_y ≤ c.2 ∧ c.2 ≤ r.max_y)) := by
  unfold enterCols
  simp only [mem_cellsXY, mem_intRange, decide_eq_true_eq]

theorem mem_enterRows {r prev : ActiveRect} {c : Int × Int} :
    c ∈ enterRows r prev ↔
      ((r.min_y ≤ c.2 ∧ c.2 ≤ r.max_y) ∧ (c.2 < prev.min_y ∨ c.2 > prev.max_y) ∧
        (r.min_x ≤ c.1 ∧ c.1 ≤ r.max_x)) := by
  unfold enterRows
  simp only [mem_cellsYX, mem_intRange, decide_eq_true_eq]

theorem mem_leaveCols {r prev : ActiveRect} {c : Int × Int} :
    c ∈ leaveCols r prev ↔
      ((prev.min_x ≤ c.1 ∧ c.1 ≤ prev.max_x) ∧ (c.1 < r.min_x ∨ c.1 > r.max_x) ∧
        (prev.min_y ≤ c.2 ∧ c.2 ≤ prev.max_y)) := by
  unfold leaveCols
  simp only [mem_cellsXY, mem_intRange, decide_eq_true_eq]

theorem mem_leaveRows {r prev : ActiveRect} {c : Int × Int} :
    c ∈ leaveRows r prev ↔
      ((prev.min_y ≤ c.2 ∧ c.2 ≤ prev.max_y) ∧ (c.2 < r.min_y ∨ c.2 > r.max_y) ∧
        ((prev.min_x ≤ c.1 ∧ c.1 ≤ prev.max_x) ∧ (r.min_x ≤ c.1 ∧ c.1 ≤ r.max_x))) := by
  unfold leaveRows
  simp only [mem_cellsYX, List.mem_filter, mem_intRange, decide_eq_true_eq]

theorem streamTiles_lastRect (s : GameState) (r : ActiveRect) :
    (streamTiles s r).lastRect = some r := by
  by_cases h : s.lastRect = some r
  · rw [streamTiles_self s r h]
    exact h
  · cases hl : s.lastRect with
    | none =>
      rw [streamTiles_eq_none s r h hl]
    | some prev =>
      rw [streamTiles_eq_some s r prev h hl]

theorem streamR2_frame (s : GameState) (r prev : ActiveRect) :
    (streamR2 s r prev).terrain.width = s.terrain.width ∧
    (streamR2 s r prev).terrain.height = s.terrain.height ∧
    (streamR2 s r prev).terrain.tiles = s.terrain.tiles := by
  have h1 := ensure_fold_frame (enterCols r prev) s
  have h2 := ensure_fold_frame (enterRows r prev) (streamA1 s r prev)
  have h3 := recycle_fold_frame (leaveCols r prev) (streamA2 s r prev)
  have h4 := recycle_fold_frame (leaveRows r prev) (streamR1 s r prev)
  refine ⟨?_, ?_, ?_⟩
  · exact (h4.1.1).trans ((h3.1.1).trans ((h2.1.1).trans h1.1.1))
  · exact (h4.1.2).trans ((h3.1.2).trans ((h2.1.2).trans h1.1.2))
  · exact (h4.2.1).trans ((h3.2.1).trans ((h2.2.1).trans h1.2.1))

theorem streamR2_sprites (s : GameState) (r prev : ActiveRect) (x y : Nat)
    (hx : x < s.terrain.width) (hy : y < s.terrain.height)
    (hr : rectInBounds s.terrain.width s.terrain.height r)
    (hp : rectInBounds s.terrain.width s.terrain.height prev) :
    (((streamR2 s r prev).terrain.sprite_entities
        (s.terrain.idx x y)).isSome = true) ↔
      ((((x : Int), (y : Int)) ∉ leaveRows r prev) ∧
        (((x : Int), (y : Int)) ∉ leaveCols r prev) ∧
        (((s.terrain.sprite_entities (s.terrain.idx x y)).isSome = true) ∨
          ((((x : Int), (y : Int)) ∈ enterCols r prev) ∧
            isStreamedKind ((s.terrain.tiles y x).kind) = true) ∨
          ((((x : Int), (y : Int)) ∈ enterRows r prev) ∧
            isStreamedKind ((s.terrain.tiles y x).kind) = true))) := by
  obtain ⟨hr1, hr2, hr3, hr4⟩ := hr
  obtain ⟨hp1, hp2, hp3, hp4⟩ := hp
  have hw1 : (streamA1 s r prev).terrain.width = s.terrain.width :=
    (ensure_fold_frame _ _).1.1
  have hh1 : (streamA1 s r prev).terrain.height = s.terrain.height :=
    (ensure_fold_frame _ _).1.2
  have ht1 : (streamA1 s r prev).terrain.tiles = s.terrain.tiles :=
    (ensure_fold_frame _ _).2.1
  have hw2 : (streamA2 s r prev).terrain.width = (streamA1 s r prev).terrain.width :=
    (ensure_fold_frame _ _).1.1
  have hh2 : (streamA2 s r prev).terrain.height = (streamA1 s r prev).terrain.height :=
    (ensure_fold_frame _ _).1.2
  have ht2 : (streamA2 s r prev).terrain.tiles = (streamA1 s r prev).terrain.tiles :=
    (ensure_fold_frame _ _).2.1
  have hw3 : (streamR1 s r prev).terrain.width = (streamA2 s r prev).terrain.width :=
    (recycle_fold_frame _ _).1.1
  have hh3 : (streamR1 s r prev).terrain.height = (streamA2 s r prev).terrain.height :=
    (recycle_fold_frame _ _).1.2
  have hb1 : ∀ c ∈ enterCols r prev, 0 ≤ c.1 ∧ 0 ≤ c.2 ∧
      c.1 < (s.terrain.width : Int) ∧ c.2 < (s.terrain.height : Int) := by
    intro c hc
    rw [mem_enterCols] at hc
    omega
  have hb2 : ∀ c ∈ enterRows r prev, 0 ≤ c.1 ∧ 0 ≤ c.2 ∧
      c.1 < ((streamA1 s r prev).terrain.width : Int) ∧
      c.2 < ((streamA1 s r prev).terrain.height : Int) := by
    intro c hc
    rw [mem_enterRows] at hc
    rw [hw1, hh1]
    omega
  have hb3 : ∀ c ∈ leaveCols r prev, 0 ≤ c.1 ∧ 0 ≤ c.2 ∧
      c.1 < ((streamA2 s r prev).terrain.width : Int) ∧
      c.2 < ((streamA2 s r prev).terrain.height : Int) := by
    intro c hc
    rw [mem_leaveCols] at hc
    rw [hw2, hh2, hw1, hh1]
    omega
  have hb4 : ∀ c ∈ leaveRows r prev, 0 ≤ c.1 ∧ 0 ≤ c.2 ∧
      c.1 < ((streamR1 s r prev).terrain.width : Int) ∧
      c.2 < ((streamR1 s r prev).terrain.height : Int) := by
    intro c hc
    rw [mem_leaveRows] at hc
    rw [hw3, hh3, hw2, hh2, hw1, hh1]
    omega
  have hx1 : x < (streamA1 s r prev).terrain.width := by rw [hw1]; exact hx
  have hy1 : y < (streamA1 s r prev).terrain.height := by rw [hh1]; exact hy
  have hx2 : x < (streamA2 s r prev).terrain.width := by rw [hw2]; exact hx1
  have hy2 : y < (streamA2 s r prev).terrain.height := by rw [hh2]; exact hy1
  have hx3 : x < (streamR1 s r prev).terrain.width := by rw [hw3]; exact hx2
  have hy3 : y < (streamR1 s r prev).terrain.height := by rw [hh3]; exact hy2
  have hidx1 : (streamA1 s r prev).terrain.idx x y = s.terrain.idx x y := by
    unfold Terrain.idx
    rw [hw1]
  have hidx2 : (streamA2 s r prev).terrain.idx x y = s.terrain.idx x y := by
    unfold Terrain.idx
    rw [hw2, hw1]
  have hidx3 : (streamR1 s r prev).terrain.idx x y = s.terrain.idx x y := by
    unfold Terrain.idx
    rw [hw3, hw2, hw1]
  have e1 : (((streamA1 s r prev).terrain.sprite_entities
      (s.terrain.idx x y)).isSome = true) ↔
      (((s.terrain.sprite_entities (s.terrain.idx x y)).isSome = true) ∨
        ((((x : Int), (y : Int)) ∈ enterCols r prev) ∧
          isStreamedKind ((s.terrain.tiles y x).kind) = true)) :=
    ensure_fold_isSome _ s x y hx hy hb1
  have e2 : (((streamA2 s r prev).terrain.sprite_entities
      (s.terrain.idx x y)).isSome = true) ↔
      ((((streamA1 s r prev).terrain.sprite_entities
          (s.terrain.idx x y)).isSome = true) ∨
        ((((x : Int), (y : Int)) ∈ enterRows r prev) ∧
          isStreamedKind ((s.terrain.tiles y x).kind) = true)) := by
    have e2a := ensure_fold_isSome (enterRows r prev) (streamA1 s r prev)
      x y hx1 hy1 hb2
    rw [hidx1, ht1] at e2a
    exact e2a
  have e3 : (streamR1 s r prev).terrain.sprite_entities (s.terrain.idx x y) =
      (if ((x : Int), (y : Int)) ∈ leaveCols r prev then none
      else (streamA2 s r prev).terrain.sprite_entities (s.terrain.idx x y)) := by
    have e3a := recycle_fold_sprites (leaveCols r prev) (streamA2 s r prev)
      x y hx2 hy2 hb3
    rw [hidx2] at e3a
    exact e3a
  have e4 : (streamR2 s r prev).terrain.sprite_entities (s.terrain.idx x y) =
      (if ((x : Int), (y : Int)) ∈ leaveRows r prev then none
      else (streamR1 s r prev).terrain.sprite_entities (s.terrain.idx x y)) := by
    have e4a := recycle_fold_sprites (leaveRows r prev) (streamR1 s r prev)
      x y hx3 hy3 hb4
    rw [hidx3] at e4a
    exact e4a
  rw [e4]
  by_cases m4 : ((x : Int), (y : Int)) ∈ leaveRows r prev
  · rw [if_pos m4]
    simp only [Option.isSome_none, Bool.false_eq_true, false_iff]
    intro hcon
    exact hcon.1 m4
  · rw [if_neg m4, e3]
    by_cases m3 : ((x : Int), (y : Int)) ∈ leaveCols r prev
    · rw [if_pos m3]
      simp only [Option.isSome_none, Bool.false_eq_true, false_iff]
      intro hcon
      exact hcon.2.1 m3
    · rw [if_neg m3, e2, e1]
      constructor
      · intro hin
        refine ⟨m4, m3, ?_⟩
        rcases hin with (h | h) | h
        · exact Or.inl h
        · exact Or.inr (Or.inl h)
        · exact Or.inr (Or.inr h)
      · rintro ⟨-, -, (h | h | h)⟩
        · exact Or.inl (Or.inl h)
        · exact Or.inl (Or.inr h)
        · exact Or.inr h

theorem streamTiles_step (s : GameState) (r : ActiveRect)
    (hinv : StreamInv s)
    (hlb : ∀ pr, s.lastRect = some pr →
      rectInBounds s.terrain.width s.terrain.height pr)
    (hr : rectInBounds s.terrain.width s.terrain.height r) :
    StreamInv (streamTiles s r) ∧
    (streamTiles s r).terrain.width = s.terrain.width ∧
    (streamTiles s r).terrain.height = s.terrain.height ∧
    (streamTiles s r).terrain.tiles = s.terrain.tiles ∧
    (streamTiles s r).lastRect = some r := by
  by_cases h : s.lastRect = some r
  · rw [streamTiles_self s r h]
    exact ⟨hinv, rfl, rfl, rfl, h⟩
  · cases hl : s.lastRect with
    | none =>
      rw [streamTiles_eq_none s r h hl]
      have hb : ∀ c ∈ fullCells r, 0 ≤ c.1 ∧ 0 ≤ c.2 ∧
          c.1 < (s.terrain.width : Int) ∧ c.2 < (s.terrain.height : Int) := by
        intro c hc
        rw [mem_fullCells] at hc
        obtain ⟨q1, q2, q3, q4⟩ := hr
        omega
      have hw1 : (streamFull s r).terrain.width = s.terrain.width :=
        (ensure_fold_frame _ _).1.1
      have hh1 : (streamFull s r).terrain.height = s.terrain.height :=
        (ensure_fold_frame _ _).1.2
      have ht1 : (streamFull s r).terrain.tiles = s.terrain.tiles :=
        (ensure_fold_frame _ _).2.1
      refine ⟨?_, hw1, hh1, ht1, rfl⟩
      refine StreamInv_of _ s.terrain.width s.terrain.height s.terrain.tiles r
        hw1 hh1 ht1 rfl ?_
      intro x hx y hy
      show (((streamFull s r).terrain.sprite_entities
          (s.terrain.idx x y)).isSome = true) ↔ naiveLive s.terrain.tiles r x y
      have hfold : (((streamFull s r).terrain.sprite_entities
          (s.terrain.idx x y)).isSome = true) ↔
          (((s.terrain.sprite_entities (s.terrain.idx x y)).isSome = true) ∨
            ((((x : Int), (y : Int)) ∈ fullCells r) ∧
              isStreamedKind ((s.terrain.tiles y x).kind) = true)) :=
        ensure_fold_isSome _ s x y hx hy hb
      have hold : ¬ ((s.terrain.sprite_entities (s.terrain.idx x y)).isSome = true) := by
        intro hsome
        obtain ⟨r2, hr2, _⟩ := (hinv x hx y hy).mp hsome
        rw [hl] at hr2
        exact Option.noConfusion hr2
      rw [hfold, mem_fullCells]
      unfold naiveLive inRect
      rw [isStreamedKind_iff]
      constructor
      · rintro (hcontra | ⟨hm, hk⟩)
        · exact absurd hcontra hold
        · exact ⟨⟨hm.2.1, hm.2.2, hm.1.1, hm.1.2⟩, hk⟩
      · rintro ⟨hm, hk⟩
        exact Or.inr ⟨⟨⟨hm.2.2.1, hm.2.2.2⟩, hm.1, hm.2.1⟩, hk⟩
    | some prev =>
      rw [streamTiles_eq_some s r prev h hl]
      have hp := hlb prev hl
      obtain ⟨hW, hH, hT⟩ := streamR2_frame s r prev
      refine ⟨?_, hW, hH, hT, rfl⟩
      refine StreamInv_of _ s.terrain.width s.terrain.height s.terrain.tiles r
        hW hH hT rfl ?_
      intro x hx y hy
      show (((streamR2 s r prev).terrain.sprite_entities
          (s.terrain.idx x y)).isSome = true) ↔ naiveLive s.terrain.tiles r x y
      have hcell := streamR2_sprites s r prev x y hx hy hr hp
      have h0 : ((s.terrain.sprite_entities (s.terrain.idx x y)).isSome = true) ↔
          naiveLive s.terrain.tiles prev x y := by
        have hiv := hinv x hx y hy
        rw [hl] at hiv
        simp only [Option.some.injEq, exists_eq_left'] at hiv
        exact hiv
      rw [hcell, h0, mem_enterCols, mem_enterRows, mem_leaveCols, mem_leaveRows]
      unfold naiveLive inRect
      obtain ⟨q1, q2, q3, q4⟩ := hr
      obtain ⟨p1, p2, p3, p4⟩ := hp
      by_cases hk : (s.terrain.tiles y x).kind = Sky
      · have hks : isStreamedKind Sky = false := rfl
        simp [hk, hks]
      · have hks : isStreamedKind ((s.terrain.tiles y x).kind) = true :=
          (isStreamedKind_iff _).mpr hk
        simp only [hks, hk, ne_eq, not_false_eq_true, and_true, eq_self_iff_true]
        omega

theorem streamInv_init (s : GameState)
    (hsp : ∀ i, s.terrain.sprite_entities i = none)
    (hlr : s.lastRect = none) : StreamInv s := by
  intro x hx y hy
  simp [hsp, hlr]

theorem runStream_inv (rs : List ActiveRect) : ∀ (s : GameState), StreamInv s →
    (∀ pr, s.lastRect = some pr →
      rectInBounds s.terrain.width s.terrain.height pr) →
    (∀ q ∈ rs, rectInBounds s.terrain.width s.terrain.height q) →
    StreamInv (runStream s rs) ∧
    (runStream s rs).terrain.width = s.terrain.width ∧
    (runStream s rs).terrain.height = s.terrain.height ∧
    (runStream s rs).terrain.tiles = s.terrain.tiles := by
  induction rs with
  | nil =>
    intro s h1 h2 h3
    exact ⟨h1, rfl, rfl, rfl⟩
  | cons a rs ih =>
    intro s h1 h2 h3
    obtain ⟨hinv1, hw1, hh1, ht1, hlr1⟩ :=
      streamTiles_step s a h1 h2 (h3 a (List.mem_cons_self _ _))
    have h2a : ∀ pr, (streamTiles s a).lastRect = some pr →
        rectInBounds (streamTiles s a).terrain.width
          (streamTiles s a).terrain.height pr := by
      intro pr hpr
      rw [hlr1] at hpr
      injection hpr with hpr2
      rw [← hpr2, hw1, hh1]
      exact h3 a (List.mem_cons_self _ _)
    have h3a : ∀ q ∈ rs, rectInBounds (streamTiles s a).terrain.width
        (streamTiles s a).terrain.height q := by
      intro q hq
      rw [hw1, hh1]
      exact h3 q (List.mem_cons_of_mem _ hq)
    obtain ⟨i1, i2, i3, i4⟩ := ih (streamTiles s a) hinv1 h2a h3a
    exact ⟨i1, i2.trans hw1, i3.trans hh1, i4.trans ht1⟩

theorem runStream_lastRect (rs : List ActiveRect) :
    ∀ (s : GameState) (r : ActiveRect), rs.getLast? = some r →
    (runStream s rs).lastRect = some r := by
  induction rs with
  | nil =>
    intro s r hr
    exact absurd hr (by simp)
  | cons a rs ih =>
    intro s r hr
    cases rs with
    | nil =>
      simp only [List.getLast?_singleton, Option.some.injEq] at hr
      rw [← hr]
      exact streamTiles_lastRect s a
    | cons b rs2 =>
      rw [List.getLast?_cons_cons] at hr
      exact ih (streamTiles s a) r hr

/-- C1: stripe-diff equivalence of the streaming window.
Starting from the no-previous-rectangle state with no live drawables, after
any sequence of in-bounds `stream_tiles_system` runs the grid cells holding
a live drawable handle are exactly the non-`Sky` cells of the last streamed
rectangle — the same set naive re-materialization of the current rectangle
from scratch would produce (`naiveLive`). -/
theorem c1_stripe_diff_equivalence (s0 : GameState) (rects : List ActiveRect)
    (r : ActiveRect)
    (hsp : ∀ i, s0.terrain.sprite_entities i = none)
    (hlr : s0.lastRect = none)
    (hlast : rects.getLast? = some r)
    (hin : ∀ q ∈ rects, rectInBounds s0.terrain.width s0.terrain.height q) :
    ∀ x, x < s0.terrain.width → ∀ y, y < s0.terrain.height →
      ((((runStream s0 rects).terrain.sprite_entities
          ((runStream s0 rects).terrain.idx x y)).isSome = true) ↔
        naiveLive s0.terrain.tiles r x y) := by
  intro x hx y hy
  have hinit := streamInv_init s0 hsp hlr
  have hlb0 : ∀ pr, s0.lastRect = some pr →
      rectInBounds s0.terrain.width s0.terrain.height pr := by
    intro pr hpr
    rw [hlr] at hpr
    exact Option.noConfusion hpr
  obtain ⟨hinv, hw, hh, ht⟩ := runStream_inv rects s0 hinit hlb0 hin
  have hfin := hinv x (by rw [hw]; exact hx) y (by rw [hh]; exact hy)
  rw [runStream_lastRect rects s0 r hlast, ht] at hfin
  simp only [Option.some.injEq, exists_eq_left'] at hfin
  exact hfin

theorem c1_stripe_diff_equivalence_witness :
    (∀ q ∈ [rectA, rectB],
      rectInBounds gsStream.terrain.width gsStream.terrain.height q) ∧
    ((((runStream gsStream [rectA, rectB]).terrain.sprite_entities
        ((runStream gsStream [rectA, rectB]).terrain.idx 1 2)).isSome = true) ↔
      naiveLive gsStream.terrain.tiles rectB 1 2) :=
  ⟨by decide, c1_stripe_diff_equivalence gsStream [rectA, rectB] rectB
    (fun _ => rfl) rfl (by decide) (by decide) 1 (by decide) 2 (by decide)⟩

theorem wf_write_pool_head (s : GameState) (ux uy : Nat) (e : Nat)
    (rest : List Nat) (hw : StateWF s)
    (hux : ux < s.terrain.width) (huy : uy < s.terrain.height)
    (hpool : s.terrain.free_sprites = e :: rest) (vis : Nat → Bool) :
    StateWF { s with
      terrain := { s.terrain with
        free_sprites := rest,
        sprite_entities := Function.update s.terrain.sprite_entities
          (s.terrain.idx ux uy) (some e) },
      entityVis := vis } := by
  obtain ⟨w1, w2, w3, w4, w5, w6, w7⟩ := hw
  have hnodup := w3
  rw [hpool] at hnodup
  have henotin : e ∉ rest := (List.nodup_cons.mp hnodup).1
  have herest : rest.Nodup := (List.nodup_cons.mp hnodup).2
  have hee : e ∈ s.terrain.free_sprites := by
    rw [hpool]
    exact List.mem_cons_self _ _
  have henoref := w2 e hee
  refine ⟨?_, ?_, herest, w4, ?_, ?_, w7⟩
  · intro x1 hx1 y1 hy1 x2 hx2 y2 hy2 hsome heq
    simp only [Terrain.idx] at hsome heq
    by_cases h1 : y1 * s.terrain.width + x1 = uy * s.terrain.width + ux
    · by_cases h2 : y2 * s.terrain.width + x2 = uy * s.terrain.width + ux
      · obtain ⟨a1, b1⟩ := idx_inj hx1 hux h1
        obtain ⟨a2, b2⟩ := idx_inj hx2 hux h2
        exact ⟨by omega, by omega⟩
      · rw [h1, Function.update_same, Function.update_noteq h2] at heq
        exact absurd heq.symm (henoref x2 hx2 y2 hy2)
    · rw [Function.update_noteq h1] at hsome heq
      by_cases h2 : y2 * s.terrain.width + x2 = uy * s.terrain.width + ux
      · rw [h2, Function.update_same] at heq
        exact absurd heq (henoref x1 hx1 y1 hy1)
      · rw [Function.update_noteq h2] at heq
        exact w1 x1 hx1 y1 hy1 x2 hx2 y2 hy2 hsome heq
  · intro e2 he2 x hx y hy
    simp only [Terrain.idx]
    by_cases hix : y * s.terrain.width + x = uy * s.terrain.width + ux
    · rw [hix, Function.update_same]
      intro hcon
      injection hcon with hcon2
      exact henotin (hcon2 ▸ he2)
    · rw [Function.update_noteq hix]
      exact w2 e2 (by rw [hpool]; exact List.mem_cons_of_mem _ he2) x hx y hy
  · intro x hx y hy hsome
    simp only [Terrain.idx] at hsome ⊢
    by_cases hix : y * s.terrain.width + x = uy * s.terrain.width + ux
    · rw [hix, Function.update_same]
      simp only [Option.getD_some]
      exact w6 e hee
    · rw [Function.update_noteq hix] at hsome ⊢
      exact w5 x hx y hy hsome
  · intro e2 he2
    exact w6 e2 (by rw [hpool]; exact List.mem_cons_of_mem _ he2)

theorem wf_write_fresh (s : GameState) (ux uy : Nat) (hw : StateWF s)
    (hux : ux < s.terrain.width) (huy : uy < s.terrain.height)
    (vis : Nat → Bool) :
    StateWF { s with
      terrain := { s.terrain with
        sprite_entities := Function.update s.terrain.sprite_entities
          (s.terrain.idx ux uy) (some s.nextEntity) },
      nextEntity := s.nextEntity + 1,
      entityVis := vis } := by
  obtain ⟨w1, w2, w3, w4, w5, w6, w7⟩ := hw
  have hnoref : ∀ x, x < s.terrain.width → ∀ y, y < s.terrain.height →
      s.terrain.sprite_entities (y * s.terrain.width + x) ≠ some s.nextEntity := by
    intro x hx y hy hcon
    have h5 := w5 x hx y hy (by rw [show s.terrain.idx x y = y * s.terrain.width + x from rfl, hcon]; rfl)
    rw [show s.terrain.idx x y = y * s.terrain.width + x from rfl, hcon] at h5
    simp only [Option.getD_some] at h5
    omega
  refine ⟨?_, ?_, w3, w4, ?_, ?_, w7⟩
  · intro x1 hx1 y1 hy1 x2 hx2 y2 hy2 hsome heq
    simp only [Terrain.idx] at hsome heq
    by_cases h1 : y1 * s.terrain.width + x1 = uy * s.terrain.width + ux
    · by_cases h2 : y2 * s.terrain.width + x2 = uy * s.terrain.width + ux
      · obtain ⟨a1, b1⟩ := idx_inj hx1 hux h1
        obtain ⟨a2, b2⟩ := idx_inj hx2 hux h2
        exact ⟨by omega, by omega⟩
      · rw [h1, Function.update_same, Function.update_noteq h2] at heq
        exact absurd heq.symm (hnoref x2 hx2 y2 hy2)
    · rw [Function.update_noteq h1] at hsome heq
      by_cases h2 : y2 * s.terrain.width + x2 = uy * s.terrain.width + ux
      · rw [h2, Function.update_same] at heq
        exact absurd heq (hnoref x1 hx1 y1 hy1)
      · rw [Function.update_noteq h2] at heq
        exact w1 x1 hx1 y1 hy1 x2 hx2 y2 hy2 hsome heq
  · intro e2 he2 x hx y hy
    simp only [Terrain.idx]
    by_cases hix : y * s.terrain.width + x = uy * s.terrain.width + ux
    · rw [hix, Function.update_same]
      intro hcon
      injection hcon with hcon2
      have := w6 e2 he2
      omega
    · rw [Function.update_noteq hix]
      exact w2 e2 he2 x hx y hy
  · intro x hx y hy hsome
    simp only [Terrain.idx] at hsome ⊢
    by_cases hix : y * s.terrain.width + x = uy * s.terrain.width + ux
    · rw [hix, Function.update_same]
      simp only [Option.getD_some]
      show s.nextEntity < s.nextEntity + 1
      omega
    · rw [Function.update_noteq hix] at hsome ⊢
      have hx2 : x < s.terrain.width := hx
      have hy2 : y < s.terrain.height := hy
      have h5 : (s.terrain.sprite_entities (y * s.terrain.width + x)).getD 0 <
          s.nextEntity := w5 x hx2 y hy2 hsome
      show (s.terrain.sprite_entities (y * s.terrain.width + x)).getD 0 <
        s.nextEntity + 1
      omega
  · intro e2 he2
    have h6 := w6 e2 he2
    show e2 < s.nextEntity + 1
    omega

theorem wf_recycle_slot (s : GameState) (ux uy : Nat) (e : Nat)
    (hw : StateWF s) (hux : ux < s.terrain.width) (huy : uy < s.terrain.height)
    (hslot : s.terrain.sprite_entities (s.terrain.idx ux uy) = some e)
    (vis : Nat → Bool) :
    StateWF { s with
      terrain := { s.terrain with
        sprite_entities := Function.update s.terrain.sprite_entities
          (s.terrain.idx ux uy) none,
        free_sprites := e :: s.terrain.free_sprites },
      entityVis := vis } := by
  obtain ⟨w1, w2, w3, w4, w5, w6, w7⟩ := hw
  have henotin : e ∉ s.terrain.free_sprites := by
    intro hmem
    exact w2 e hmem ux hux uy huy hslot
  refine ⟨?_, ?_, List.nodup_cons.mpr ⟨henotin, w3⟩, w4, ?_, ?_, w7⟩
  · intro x1 hx1 y1 hy1 x2 hx2 y2 hy2 hsome heq
    simp only [Terrain.idx] at hsome heq
    by_cases h1 : y1 * s.terrain.width + x1 = uy * s.terrain.width + ux
    · rw [h1, Function.update_same] at hsome
      exact absurd hsome (by simp)
    · rw [Function.update_noteq h1] at hsome heq
      by_cases h2 : y2 * s.terrain.width + x2 = uy * s.terrain.width + ux
      · rw [h2, Function.update_same] at heq
        rw [heq] at hsome
        exact absurd hsome (by simp)
      · rw [Function.update_noteq h2] at heq
        exact w1 x1 hx1 y1 hy1 x2 hx2 y2 hy2 hsome heq
  · intro e2 he2 x hx y hy
    simp only [Terrain.idx]
    by_cases hix : y * s.terrain.width + x = uy * s.terrain.width + ux
    · rw [hix, Function.update_same]
      intro hcon
      exact Option.noConfusion hcon
    · rw [Function.update_noteq hix]
      rcases List.mem_cons.mp he2 with he3 | he3
      · intro hcon
        have hs2 : (s.terrain.sprite_entities (y * s.terrain.width + x)).isSome = true := by
          rw [hcon]
          rfl
        have := w1 x hx y hy ux hux uy huy hs2
          (by rw [show s.terrain.idx x y = y * s.terrain.width + x from rfl,
                hcon, hslot, he3])
        apply hix
        rw [this.1, this.2]
      · exact w2 e2 he3 x hx y hy
  · intro x hx y hy hsome
    simp only [Terrain.idx] at hsome ⊢
    by_cases hix : y * s.terrain.width + x = uy * s.terrain.width + ux
    · rw [hix, Function.update_same] at hsome
      exact absurd hsome (by simp)
    · rw [Function.update_noteq hix] at hsome ⊢
      exact w5 x hx y hy hsome
  · intro e2 he2
    rcases List.mem_cons.mp he2 with he3 | he3
    · have h5 := w5 ux hux uy huy (by rw [hslot]; rfl)
      rw [hslot] at h5
      simp only [Option.getD_some] at h5
      rw [he3]
      exact h5
    · exact w6 e2 he3

theorem wf_mutate_tiles (s : GameState) (t2 : Terrain) (vis : Nat → Bool)
    (hw : StateWF s)
    (hwd : t2.width = s.terrain.width) (hht : t2.height = s.terrain.height)
    (hsp : t2.sprite_entities = s.terrain.sprite_entities)
    (hfs : t2.free_sprites = s.terrain.free_sprites)
    (hq : ∀ c ∈ t2.changed_tiles, c.1 < t2.width ∧ c.2 < t2.height) :
    StateWF { s with terrain := t2, entityVis := vis } := by
  obtain ⟨w1, w2, w3, w4, w5, w6, w7⟩ := hw
  refine ⟨?_, ?_, ?_, hq, ?_, ?_, ?_⟩
  · intro x1 hx1 y1 hy1 x2 hx2 y2 hy2 hsome heq
    simp only [Terrain.idx] at hsome heq
    rw [hsp, hwd] at hsome heq
    rw [hwd] at hx1 hx2
    rw [hht] at hy1 hy2
    exact w1 x1 hx1 y1 hy1 x2 hx2 y2 hy2 hsome heq
  · intro e2 he2 x hx y hy
    simp only [Terrain.idx]
    rw [hsp, hwd]
    rw [hfs] at he2
    rw [hwd] at hx
    rw [hht] at hy
    exact w2 e2 he2 x hx y hy
  · rw [hfs]
    exact w3
  · intro x hx y hy hsome
    simp only [Terrain.idx] at hsome ⊢
    rw [hsp, hwd] at hsome ⊢
    rw [hwd] at hx
    rw [hht] at hy
    show (s.terrain.sprite_entities (y * s.terrain.width + x)).getD 0 < s.nextEntity
    exact w5 x hx y hy hsome
  · intro e2 he2
    rw [hfs] at he2
    show e2 < s.nextEntity
    exact w6 e2 he2
  · intro r0 h0
    rw [hwd, hht]
    exact w7 r0 h0

theorem wf_bump (s : GameState) (vis : Nat → Bool) (hw : StateWF s) :
    StateWF { s with nextEntity := s.nextEntity + 1, entityVis := vis } := by
  obtain ⟨w1, w2, w3, w4, w5, w6, w7⟩ := hw
  refine ⟨w1, w2, w3, w4, ?_, ?_, w7⟩
  · intro x hx y hy hsome
    have h5 := w5 x hx y hy hsome
    show (s.terrain.sprite_entities (s.terrain.idx x y)).getD 0 < s.nextEntity + 1
    omega
  · intro e2 he2
    have h6 := w6 e2 he2
    show e2 < s.nextEntity + 1
    omega

theorem wf_setLastRect (s : GameState) (r : ActiveRect) (hw : StateWF s)
    (hr : rectInBounds s.terrain.width s.terrain.height r) :
    StateWF { s with lastRect := some r } := by
  obtain ⟨w1, w2, w3, w4, w5, w6, _⟩ := hw
  refine ⟨w1, w2, w3, w4, w5, w6, ?_⟩
  intro r0 h0
  injection h0 with h1
  rw [← h1]
  exact hr

theorem ensureSprite_wf (s : GameState) (x y : Int) (hw : StateWF s) :
    StateWF (ensureSprite s x y) := by
  unfold ensureSprite
  dsimp only
  split
  · exact hw
  · rename_i hb
    split
    · exact hw
    · split
      · exact hw
      · split
        · rename_i e rest hpool
          exact wf_write_pool_head s x.toNat y.toNat e rest hw
            (by omega) (by omega) hpool _
        · rename_i hpool
          exact wf_write_fresh s x.toNat y.toNat hw (by omega) (by omega) _

theorem recycleAt_wf (s : GameState) (x y : Int) (hw : StateWF s)
    (hx0 : 0 ≤ x) (hy0 : 0 ≤ y) (hxw : x < (s.terrain.width : Int))
    (hyh : y < (s.terrain.height : Int)) :
    StateWF (recycleAt s x y) := by
  unfold recycleAt
  dsimp only
  split
  · rename_i e hslot
    exact wf_recycle_slot s x.toNat y.toNat e hw (by omega) (by omega) hslot _
  · exact hw

theorem ensure_fold_wf (L : List (Int × Int)) :
    ∀ (s : GameState), StateWF s →
    StateWF (L.foldl (fun a c => ensureSprite a c.1 c.2) s) := by
  induction L with
  | nil =>
    intro s hw
    exact hw
  | cons c L ih =>
    intro s hw
    rw [List.foldl_cons]
    exact ih _ (ensureSprite_wf s c.1 c.2 hw)

theorem recycle_fold_wf (L : List (Int × Int)) :
    ∀ (s : GameState), StateWF s →
    (∀ c ∈ L, 0 ≤ c.1 ∧ 0 ≤ c.2 ∧ c.1 < (s.terrain.width : Int) ∧
      c.2 < (s.terrain.height : Int)) →
    StateWF (L.foldl (fun a c => recycleAt a c.1 c.2) s) := by
  induction L with
  | nil =>
    intro s hw _
    exact hw
  | cons c L ih =>
    intro s hw hb
    rw [List.foldl_cons]
    obtain ⟨hc1, hc2, hc3, hc4⟩ := hb c (List.mem_cons_self _ _)
    obtain ⟨w2, h2, _, _, _, _, _⟩ := recycleAt_frame s c.1 c.2
    refine ih _ (recycleAt_wf s c.1 c.2 hw hc1 hc2 hc3 hc4) ?_
    intro d hd
    rw [w2, h2]
    exact hb d (List.mem_cons_of_mem _ hd)

theorem streamTiles_wf (s : GameState) (r : ActiveRect) (hw : StateWF s)
    (hr : rectInBounds s.terrain.width s.terrain.height r) :
    StateWF (streamTiles s r) := by
  by_cases h : s.lastRect = some r
  · rw [streamTiles_self s r h]
    exact hw
  · cases hl : s.lastRect with
    | none =>
      rw [streamTiles_eq_none s r h hl]
      have h1 : StateWF (streamFull s r) := ensure_fold_wf _ s hw
      have hwf1 : (streamFull s r).terrain.width = s.terrain.width :=
        (ensure_fold_frame _ _).1.1
      have hhf1 : (streamFull s r).terrain.height = s.terrain.height :=
        (ensure_fold_frame _ _).1.2
      refine wf_setLastRect _ r h1 ?_
      rw [hwf1, hhf1]
      exact hr
    | some prev =>
      rw [streamTiles_eq_some s r prev h hl]
      have hp : rectInBounds s.terrain.width s.terrain.height prev :=
        hw.2.2.2.2.2.2 prev hl
      have hw1 : (streamA1 s r prev).terrain.width = s.terrain.width :=
        (ensure_fold_frame _ _).1.1
      have hh1 : (streamA1 s r prev).terrain.height = s.terrain.height :=
        (ensure_fold_frame _ _).1.2
      have hw2 : (streamA2 s r prev).terrain.width = (streamA1 s r prev).terrain.width :=
        (ensure_fold_frame _ _).1.1
      have hh2 : (streamA2 s r prev).terrain.height = (streamA1 s r prev).terrain.height :=
        (ensure_fold_frame _ _).1.2
      have hw3 : (streamR1 s r prev).terrain.width = (streamA2 s r prev).terrain.width :=
        (recycle_fold_frame _ _).1.1
      have hh3 : (streamR1 s r prev).terrain.height = (streamA2 s r prev).terrain.height :=
        (recycle_fold_frame _ _).1.2
      obtain ⟨q1, q2, q3, q4⟩ := hr
      obtain ⟨p1, p2, p3, p4⟩ := hp
      have hwfA2 : StateWF (streamA2 s r prev) :=
        ensure_fold_wf _ _ (ensure_fold_wf _ s hw)
      have hwfR1 : StateWF (streamR1 s r prev) := by
        refine recycle_fold_wf _ _ hwfA2 ?_
        intro c hc
        rw [mem_leaveCols] at hc
        rw [hw2, hh2, hw1, hh1]
        omega
      have hwfR2 : StateWF (streamR2 s r prev) := by
        refine recycle_fold_wf _ _ hwfR1 ?_
        intro c hc
        rw [mem_leaveRows] at hc
        rw [hw3, hh3, hw2, hh2, hw1, hh1]
        omega
      obtain ⟨hWf, hHf, _⟩ := streamR2_frame s r prev
      refine wf_setLastRect _ r hwfR2 ?_
      rw [hWf, hHf]
      exact ⟨q1, q2, q3, q4⟩

theorem redrawLoop_wf (q : List (Nat × Nat)) :
    ∀ (s : GameState) (spawns : List (Nat × Nat)), StateWF s →
    (∀ c ∈ q, c.1 < s.terrain.width ∧ c.2 < s.terrain.height) →
    StateWF (redrawLoop s q spawns).1 ∧
    (redrawLoop s q spawns).1.terrain.width = s.terrain.width ∧
    (redrawLoop s q spawns).1.terrain.height = s.terrain.height := by
  induction q with
  | nil =>
    intro s spawns hw _
    exact ⟨hw, rfl, rfl⟩
  | cons c q ih =>
    intro s spawns hw hq
    obtain ⟨cx, cy⟩ := c
    obtain ⟨hcx, hcy⟩ := hq (cx, cy) (List.mem_cons_self _ _)
    have hq2 : ∀ d ∈ q, d.1 < s.terrain.width ∧ d.2 < s.terrain.height :=
      fun d hd => hq d (List.mem_cons_of_mem _ hd)
    rw [redrawLoop]
    dsimp only
    split
    · split
      · rename_i e hslot
        exact ih _ spawns (wf_recycle_slot s cx cy e hw hcx hcy hslot _) hq2
      · exact ih s spawns hw hq2
    · set t1 := updateTileAt s.terrain cx cy (fun tile =>
        { tile with
          base_rgb :=
            redrawRgb ((s.terrain.tiles cy cx).kind) tile.base_rgb
              (tintFactor (s.terrain.color_noise cx cy)) }) with ht1
      have hws1 : StateWF { s with terrain := t1 } :=
        wf_mutate_tiles s t1 s.entityVis hw rfl rfl rfl rfl hw.2.2.2.1
      split
      · rename_i e hslot
        exact ih _ spawns
          (wf_mutate_tiles s t1 _ hw rfl rfl rfl rfl hw.2.2.2.1) hq2
      · split
        · rename_i e restFree hpool
          exact ih _ spawns
            (wf_write_pool_head { s with terrain := t1 } cx cy e restFree
              hws1 hcx hcy hpool _) hq2
        · exact ih _ (spawns ++ [(cx, cy)])
            (wf_mutate_tiles s t1 _ hw rfl rfl rfl rfl hw.2.2.2.1) hq2

theorem applySpawns_wf (spawns : List (Nat × Nat)) :
    ∀ (s : GameState), StateWF s → StateWF (applySpawns s spawns) := by
  induction spawns with
  | nil =>
    intro s hw
    exact hw
  | cons c spawns ih =>
    intro s hw
    unfold applySpawns
    rw [List.foldl_cons]
    refine ih _ ?_
    dsimp only
    split
    · rename_i hin
      exact wf_write_fresh s c.1 c.2 hw hin.2 hin.1 _
    · exact wf_bump s _ hw

theorem applySpawns_dims (spawns : List (Nat × Nat)) :
    ∀ (s : GameState),
    (applySpawns s spawns).terrain.width = s.terrain.width ∧
    (applySpawns s spawns).terrain.height = s.terrain.height := by
  induction spawns with
  | nil =>
    intro s
    exact ⟨rfl, rfl⟩
  | cons c spawns ih =>
    intro s
    unfold applySpawns
    rw [List.foldl_cons]
    dsimp only
    split
    · exact ⟨(ih _).1, (ih _).2⟩
    · exact ⟨(ih _).1, (ih _).2⟩

theorem redrawChangedTiles_wf (s : GameState) (hw : StateWF s) :
    StateWF (redrawChangedTiles s) ∧
    (redrawChangedTiles s).terrain.width = s.terrain.width ∧
    (redrawChangedTiles s).terrain.height = s.terrain.height := by
  unfold redrawChangedTiles
  dsimp only
  have hws : StateWF { s with terrain :=
      { s.terrain with changed_tiles := ([] : List (Nat × Nat)) } } := by
    refine wf_mutate_tiles s _ _ hw rfl rfl rfl rfl ?_
    intro c hc
    exact absurd hc (List.not_mem_nil c)
  obtain ⟨hLw, hLd1, hLd2⟩ :=
    redrawLoop_wf s.terrain.changed_tiles _ [] hws hw.2.2.2.1
  refine ⟨applySpawns_wf _ _ hLw, ?_, ?_⟩
  · exact (applySpawns_dims _ _).1.trans hLd1
  · exact (applySpawns_dims _ _).2.trans hLd2

theorem dig_wf (s : GameState) (ux uy : Nat) (hw : StateWF s)
    (hx : ux < s.terrain.width) (hy : uy < s.terrain.height) :
    StateWF { s with terrain := digTileAt s.terrain ux uy } := by
  unfold digTileAt
  split
  · refine wf_mutate_tiles s _ _ hw rfl rfl rfl rfl ?_
    intro c hc
    rcases List.mem_append.mp hc with hc2 | hc2
    · exact hw.2.2.2.1 c hc2
    · rw [List.mem_singleton] at hc2
      rw [hc2]
      exact ⟨hx, hy⟩
  · exact hw

theorem digTileAt_dims (t : Terrain) (ux uy : Nat) :
    (digTileAt t ux uy).width = t.width ∧ (digTileAt t ux uy).height = t.height := by
  unfold digTileAt
  split
  · exact ⟨rfl, rfl⟩
  · exact ⟨rfl, rfl⟩

theorem pickaxe_wf (s : GameState) (ux uy : Nat) (hw : StateWF s)
    (hx : ux < s.terrain.width) (hy : uy < s.terrain.height) :
    StateWF { s with terrain := pickaxeTileAt s.terrain ux uy } := by
  unfold pickaxeTileAt
  dsimp only
  split
  · split
    · refine wf_mutate_tiles s _ _ hw rfl rfl rfl rfl ?_
      intro c hc
      rcases List.mem_append.mp hc with hc2 | hc2
      · exact hw.2.2.2.1 c hc2
      · rw [List.mem_singleton] at hc2
        rw [hc2]
        exact ⟨hx, hy⟩
    · refine wf_mutate_tiles s _ _ hw rfl rfl rfl rfl ?_
      exact hw.2.2.2.1
  · exact hw

theorem pickaxeTileAt_dims (t : Terrain) (ux uy : Nat) :
    (pickaxeTileAt t ux uy).width = t.width ∧
    (pickaxeTileAt t ux uy).height = t.height := by
  unfold pickaxeTileAt
  dsimp only
  split
  · split
    · exact ⟨rfl, rfl⟩
    · exact ⟨rfl, rfl⟩
  · exact ⟨rfl, rfl⟩

theorem place_wf (s : GameState) (tx ty : Int) (hw : StateWF s) :
    StateWF { s with terrain := placeStoneAt s.terrain tx ty } := by
  unfold placeStoneAt
  dsimp only
  split
  · exact hw
  · rename_i hb
    split
    · exact hw
    · split
      · exact hw
      · refine wf_mutate_tiles s _ _ hw rfl rfl rfl rfl ?_
        intro c hc
        rcases List.mem_append.mp hc with hc2 | hc2
        · exact hw.2.2.2.1 c hc2
        · rw [List.mem_singleton] at hc2
          rw [hc2]
          refine ⟨?_, ?_⟩
          · show tx.toNat < s.terrain.width
            omega
          · show ty.toNat < s.terrain.height
            omega

theorem placeStoneAt_dims (t : Terrain) (tx ty : Int) :
    (placeStoneAt t tx ty).width = t.width ∧
    (placeStoneAt t tx ty).height = t.height := by
  unfold placeStoneAt
  dsimp only
  split
  · exact ⟨rfl, rfl⟩
  · split
    · exact ⟨rfl, rfl⟩
    · split
      · exact ⟨rfl, rfl⟩
      · exact ⟨rfl, rfl⟩

theorem streamTiles_dims (s : GameState) (r : ActiveRect) :
    (streamTiles s r).terrain.width = s.terrain.width ∧
    (streamTiles s r).terrain.height = s.terrain.height := by
  by_cases h : s.lastRect = some r
  · rw [streamTiles_self s r h]
    exact ⟨rfl, rfl⟩
  · cases hl : s.lastRect with
    | none =>
      rw [streamTiles_eq_none s r h hl]
      exact ⟨(ensure_fold_frame _ _).1.1, (ensure_fold_frame _ _).1.2⟩
    | some prev =>
      rw [streamTiles_eq_some s r prev h hl]
      exact ⟨(streamR2_frame s r prev).1, (streamR2_frame s r prev).2.1⟩

theorem applySysOp_wf_dims (s : GameState) (op : SysOp) (hw : StateWF s)
    (hok : sysOpOK s.terrain.width s.terrain.height op) :
    StateWF (applySysOp s op) ∧
    (applySysOp s op).terrain.width = s.terrain.width ∧
    (applySysOp s op).terrain.height = s.terrain.height := by
  cases op with
  | stream r =>
    exact ⟨streamTiles_wf s r hw hok, (streamTiles_dims s r).1,
      (streamTiles_dims s r).2⟩
  | redraw => exact redrawChangedTiles_wf s hw
  | dig c =>
    exact ⟨dig_wf s c.1 c.2 hw hok.1 hok.2, (digTileAt_dims s.terrain c.1 c.2).1,
      (digTileAt_dims s.terrain c.1 c.2).2⟩
  | pickaxe c =>
    exact ⟨pickaxe_wf s c.1 c.2 hw hok.1 hok.2,
      (pickaxeTileAt_dims s.terrain c.1 c.2).1,
      (pickaxeTileAt_dims s.terrain c.1 c.2).2⟩
  | place tx ty =>
    exact ⟨place_wf s tx ty hw, (placeStoneAt_dims s.terrain tx ty).1,
      (placeStoneAt_dims s.terrain tx ty).2⟩

theorem runSysOps_wf (ops : List SysOp) : ∀ (s : GameState), StateWF s →
    (∀ op ∈ ops, sysOpOK s.terrain.width s.terrain.height op) →
    StateWF (runSysOps s ops) := by
  induction ops with
  | nil =>
    intro s h0 _
    exact h0
  | cons op ops ih =>
    intro s h0 hops
    obtain ⟨h1, hwd, hht⟩ :=
      applySysOp_wf_dims s op h0 (hops op (List.mem_cons_self _ _))
    refine ih (applySysOp s op) h1 ?_
    intro op2 hop2
    rw [hwd, hht]
    exact hops op2 (List.mem_cons_of_mem _ hop2)

theorem gsStream_wf : StateWF gsStream :=
  ⟨fun x1 _ y1 _ x2 _ y2 _ hsome _ => Bool.noConfusion hsome,
    fun e he => absurd he (List.not_mem_nil e),
    List.nodup_nil,
    fun c hc => absurd hc (List.not_mem_nil c),
    fun x _ y _ hsome => Bool.noConfusion hsome,
    fun e he => absurd he (List.not_mem_nil e),
    fun r0 h => Option.noConfusion h⟩

/-- C3: pool exclusivity.  `StateWF` packages the claimed
invariant — a drawable handle is referenced by at most one grid cell and a
pooled handle by none — together with the auxiliary facts that make it
inductive; it is preserved by every sequence of streaming runs, redraw
runs (with arbitrary, possibly duplicated queue entries) and the gameplay
tile mutations that enqueue redraws. -/
theorem c3_pool_exclusivity (s0 : GameState) (ops : List SysOp)
    (h0 : StateWF s0)
    (hops : ∀ op ∈ ops, sysOpOK s0.terrain.width s0.terrain.height op) :
    StateWF (runSysOps s0 ops) :=
  runSysOps_wf ops s0 h0 hops

theorem c3_pool_exclusivity_witness :
    StateWF gsStream ∧
    (∀ op ∈ ([SysOp.stream rectA, SysOp.dig (2, 2), SysOp.redraw,
        SysOp.stream rectB, SysOp.pickaxe (1, 1), SysOp.place 0 0,
        SysOp.redraw] : List SysOp),
      sysOpOK gsStream.terrain.width gsStream.terrain.height op) ∧
    StateWF (runSysOps gsStream [SysOp.stream rectA, SysOp.dig (2, 2),
      SysOp.redraw, SysOp.stream rectB, SysOp.pickaxe (1, 1),
      SysOp.place 0 0, SysOp.redraw]) :=
  ⟨gsStream_wf, by decide,
    c3_pool_exclusivity gsStream
      [SysOp.stream rectA, SysOp.dig (2, 2), SysOp.redraw,
        SysOp.stream rectB, SysOp.pickaxe (1, 1), SysOp.place 0 0,
        SysOp.redraw] gsStream_wf (by decide)⟩

end Platypus
